import Mathlib

/-!
Verification of the geometric core of the 2D floor-plan editor: the
geometry kernel (`geometry.ts`), the planar-graph room detector
(`roomDetection.ts`), the AI importer's topology-normalizer pass and
scaling logic (`AIService.convertVisionToWalls`), the interactive
snapping engine and the furniture alignment engine (`useCanvas.ts`),
and the `generateLayout` feasibility gate.

Modelling conventions:
* JavaScript numbers are modelled by exact rationals (`Q`).  Values the
  code only ever compares (`Math.sqrt(d) < eps`) are embedded as
  comparisons of squared quantities, which is equivalent for
  nonnegative thresholds (`distance_lt_iff` below records the bridge);
  values the code stores or returns (real distances, normals, angles)
  are embedded in `R` with `Real.sqrt` / `Complex.arg`.
* JS `Map`s are embedded as insertion-ordered association lists, JS
  `Set`s as membership lists, string keys built from integers by
  injective formatting as the integer tuples themselves.
* `Array.prototype.sort` with a numeric comparator is a stable
  ascending sort; it is embedded as a stable insertion sort.
* `Math.round` (half-up, also for negatives) is `⌊x + 1/2⌋`.
-/

/-- 2D point in world meters (`Point` in `types.ts`). -/
structure Pt where
  x : ℚ
  y : ℚ
deriving DecidableEq, Repr

/-- Vector difference (`sub` in `geometry.ts`). -/
def sub (p1 p2 : Pt) : Pt := ⟨p1.x - p2.x, p1.y - p2.y⟩

/-- Vector sum (`add` in `geometry.ts`). -/
def add (p1 p2 : Pt) : Pt := ⟨p1.x + p2.x, p1.y + p2.y⟩

/-- Scalar multiple (`scale` in `geometry.ts`). -/
def scale (p : Pt) (s : ℚ) : Pt := ⟨p.x * s, p.y * s⟩

/-- Squared Euclidean distance; the radicand of `distance` in `geometry.ts`. -/
def dsq (p1 p2 : Pt) : ℚ := (p2.x - p1.x) ^ 2 + (p2.y - p1.y) ^ 2

/-- Euclidean distance (`distance` in `geometry.ts`). -/
noncomputable def distance (p1 p2 : Pt) : ℝ := Real.sqrt (dsq p1 p2)

/-- Result record of `projectPointOnSegment`. -/
structure Proj where
  point : Pt
  t : ℚ
deriving DecidableEq, Repr

/-- Clamped orthogonal projection of `p` onto segment `a`–`b`
(`projectPointOnSegment` in `geometry.ts`). -/
def projectPointOnSegment (p a b : Pt) : Proj :=
  let ab := sub b a
  let ap := sub p a
  let lenSq := ab.x * ab.x + ab.y * ab.y
  if lenSq = 0 then ⟨a, 0⟩
  else
    let t := max 0 (min 1 ((ap.x * ab.x + ap.y * ab.y) / lenSq))
    ⟨add a (scale ab t), t⟩

/-- Distance from `p` to its clamped projection
(`pointToSegmentDistance` in `geometry.ts`). -/
noncomputable def pointToSegmentDistance (p a b : Pt) : ℝ :=
  distance p (projectPointOnSegment p a b).point

/-- Squared distance from `p` to the segment `a`–`b`; used to embed every
comparison `pointToSegmentDistance(...) < eps` of the source. -/
def dsqSeg (p a b : Pt) : ℚ := dsq p (projectPointOnSegment p a b).point

theorem dsq_nonneg (p q : Pt) : 0 ≤ dsq p q := by
  have hx := sq_nonneg (q.x - p.x)
  have hy := sq_nonneg (q.y - p.y)
  unfold dsq; linarith

theorem dsq_comm (p q : Pt) : dsq p q = dsq q p := by
  unfold dsq; ring

/-- Bridge justifying the squared-distance embedding of comparisons:
for a positive threshold, `distance p q < eps` iff `dsq p q < eps ^ 2`. -/
theorem distance_lt_iff (p q : Pt) (eps : ℚ) (heps : 0 < eps) :
    distance p q < (eps : ℝ) ↔ dsq p q < eps ^ 2 := by
  unfold distance
  rw [show ((eps : ℚ) : ℝ) = ((eps : ℝ)) from rfl]
  rw [Real.sqrt_lt' (by exact_mod_cast heps)]
  constructor
  · intro h; exact_mod_cast h
  · intro h; exact_mod_cast h

/-- C8: `projectPointOnSegment` always returns `t ∈ [0,1]` and the point
`a + t·(b−a)` (hence a point on the segment); in the degenerate case
`a = b` it returns `{point: a, t: 0}`; and `pointToSegmentDistance` is
the Euclidean distance from `p` to that clamped projection point. -/
theorem c8_projection_clamp (p a b : Pt) :
    0 ≤ (projectPointOnSegment p a b).t ∧
    (projectPointOnSegment p a b).t ≤ 1 ∧
    (projectPointOnSegment p a b).point =
      add a (scale (sub b a) (projectPointOnSegment p a b).t) ∧
    (a = b → projectPointOnSegment p a b = ⟨a, 0⟩) ∧
    pointToSegmentDistance p a b =
      distance p (projectPointOnSegment p a b).point := by
  refine ⟨?_, ?_, ?_, ?_, rfl⟩ <;>
    unfold projectPointOnSegment <;>
    by_cases h : (sub b a).x * (sub b a).x + (sub b a).y * (sub b a).y = 0 <;>
    simp only [h, if_pos, if_neg, if_true, if_false]
  · exact le_refl 0
  · exact le_max_left 0 _
  · norm_num
  · exact max_le (by norm_num) (min_le_left 1 _)
  · show a = add a (scale (sub b a) 0)
    simp [add, scale]
  · exact fun _ => trivial
  · intro hab
    exfalso
    apply h
    subst hab
    simp [sub]

/-- Witness for C8 at a concrete degenerate input. -/
theorem c8_projection_clamp_witness :
    projectPointOnSegment ⟨3, 4⟩ ⟨1, 2⟩ ⟨1, 2⟩ = ⟨⟨1, 2⟩, 0⟩ ∧
    0 ≤ (projectPointOnSegment ⟨3, 4⟩ ⟨1, 2⟩ ⟨1, 2⟩).t ∧
    (projectPointOnSegment ⟨3, 4⟩ ⟨1, 2⟩ ⟨1, 2⟩).t ≤ 1 :=
  ⟨(c8_projection_clamp ⟨3, 4⟩ ⟨1, 2⟩ ⟨1, 2⟩).2.2.2.1 rfl,
   (c8_projection_clamp ⟨3, 4⟩ ⟨1, 2⟩ ⟨1, 2⟩).1,
   (c8_projection_clamp ⟨3, 4⟩ ⟨1, 2⟩ ⟨1, 2⟩).2.1⟩

/-! ## Room detector (`roomDetection.ts`) -/

/-- Wall as consumed by `detectRooms`; `stop` models the source field
`end` (a Lean keyword), string ids are modelled as naturals. -/
structure DWall where
  id : ℕ
  start : Pt
  stop : Pt
deriving DecidableEq, Repr

/-- `EPSILON = 0.05`, the snap threshold of `roomDetection.ts`. -/
def EPSILON : ℚ := 1 / 20

/-- JS `Math.round`: round half toward positive infinity. -/
def jsRound (q : ℚ) : ℤ := ⌊q + 1 / 2⌋

/-- Spatial-hash key of a point: the string `"${round(x*100)},${round(y*100)}"`
is modelled as the integer pair itself (the formatting is injective). -/
def pointKey (p : Pt) : ℤ × ℤ := (jsRound (p.x * 100), jsRound (p.y * 100))

/-- Insertion-ordered association-list lookup (JS `Map.get`). -/
def aFind {α β : Type} [DecidableEq α] : List (α × β) → α → Option β
  | [], _ => none
  | (k, v) :: rest, a => if k = a then some v else aFind rest a

/-- Append `t` to the cut list of `id`, inserting the key if missing
(JS `Map.set` keeps the original insertion position on update). -/
def mapAppendCut : List (ℕ × List ℚ) → ℕ → ℚ → List (ℕ × List ℚ)
  | [], id, t => [(id, [t])]
  | (k, v) :: rest, id, t =>
    if k = id then (k, v ++ [t]) :: rest else (k, v) :: mapAppendCut rest id t

/-- `addCut` of `detectRooms`: ignore near-endpoint parameters
(`t < EPSILON || t > 1 - EPSILON`) and near-duplicate parameters. -/
def addCut (m : List (ℕ × List ℚ)) (wallId : ℕ) (t : ℚ) : List (ℕ × List ℚ) :=
  if t < EPSILON ∨ 1 - EPSILON < t then m
  else if (((aFind m wallId).getD []).any (fun v => |v - t| < 1 / 1000)) then m
  else mapAppendCut m wallId t

/-- `checkPoint` of the T-junction scan: if `p` is within `EPSILON` of
wall `w1`, record its projection parameter as a cut on `w1`. -/
def checkPoint (m : List (ℕ × List ℚ)) (w1 : DWall) (p : Pt) : List (ℕ × List ℚ) :=
  if dsqSeg p w1.start w1.stop < EPSILON ^ 2 then
    addCut m w1.id (projectPointOnSegment p w1.start w1.stop).t
  else m

/-- The double loop of step 0 of `detectRooms`: collect all T-junction
cut parameters, keyed by wall id. -/
def computeCuts (walls : List DWall) : List (ℕ × List ℚ) :=
  walls.foldl
    (fun m w1 =>
      walls.foldl
        (fun m w2 =>
          if w1.id = w2.id then m
          else checkPoint (checkPoint m w1 w2.start) w1 w2.stop)
        m)
    []

/-- Stable insertion into a sorted list (helper for `sortBy`). -/
def insertSorted {α : Type} (le : α → α → Bool) (a : α) : List α → List α
  | [] => [a]
  | b :: bs => if le a b then a :: b :: bs else b :: insertSorted le a bs

/-- Stable ascending sort, the model of JS `Array.prototype.sort` with a
numeric comparator (spec-mandated stable). -/
def sortBy {α : Type} (le : α → α → Bool) (l : List α) : List α :=
  l.foldr (insertSorted le) []

/-- Split one wall at its sorted cut parameters into consecutive segments. -/
def wallSegments (cuts : List (ℕ × List ℚ)) (w : DWall) : List (Pt × Pt) :=
  let cs := (aFind cuts w.id).getD []
  if cs.isEmpty then [(w.start, w.stop)]
  else
    let sorted := sortBy (fun a b => decide (a ≤ b)) cs
    let vec := sub w.stop w.start
    let pts := sorted.map (fun t => (⟨w.start.x + vec.x * t, w.start.y + vec.y * t⟩ : Pt))
    let chain := w.start :: (pts ++ [w.stop])
    chain.zip chain.tail

/-- Planarized segment list of step 0 of `detectRooms`. -/
def allSegments (walls : List DWall) : List (Pt × Pt) :=
  walls.flatMap (wallSegments (computeCuts walls))

/-- Vertex map and adjacency of the wall graph (JS `Map`s in insertion
order; keys are the spatial-hash keys). -/
structure GraphSt where
  vmap : List ((ℤ × ℤ) × Pt)
  adj : List ((ℤ × ℤ) × List (ℤ × ℤ))
deriving Repr

/-- First stored vertex within `EPSILON` of `p` (`getVertexId` scan). -/
def findVertex (vmap : List ((ℤ × ℤ) × Pt)) (p : Pt) : Option (ℤ × ℤ) :=
  (vmap.find? (fun kv => decide (dsq p kv.2 < EPSILON ^ 2))).map (fun kv => kv.1)

/-- `getVertexId`: reuse a nearby vertex or insert a fresh one keyed by
`pointKey`. -/
def getVertexId (st : GraphSt) (p : Pt) : GraphSt × (ℤ × ℤ) :=
  match findVertex st.vmap p with
  | some k => (st, k)
  | none => (⟨st.vmap ++ [(pointKey p, p)], st.adj ++ [(pointKey p, [])]⟩, pointKey p)

/-- Push `v` onto `u`'s adjacency list unless already present. -/
def adjPush : List ((ℤ × ℤ) × List (ℤ × ℤ)) → (ℤ × ℤ) → (ℤ × ℤ) →
    List ((ℤ × ℤ) × List (ℤ × ℤ))
  | [], _, _ => []
  | (k, ns) :: rest, u, v =>
    if k = u then (k, if ns.any (fun w => w = v) then ns else ns ++ [v]) :: rest
    else (k, ns) :: adjPush rest u v

/-- Insert one segment into the graph (step 1 of `detectRooms`). -/
def addSegment (st : GraphSt) (s : Pt × Pt) : GraphSt :=
  let r1 := getVertexId st s.1
  let r2 := getVertexId r1.1 s.2
  if r1.2 = r2.2 then r2.1
  else ⟨r2.1.vmap, adjPush (adjPush r2.1.adj r1.2 r2.2) r2.2 r1.2⟩

/-- Build the whole graph from the segment list. -/
def buildGraph (segs : List (Pt × Pt)) : GraphSt :=
  segs.foldl addSegment ⟨[], []⟩

/-- Ordering group of a direction vector by its `atan2` value: `atan2`
ranges over `(-pi, pi]`, so vectors below the x-axis come first, then the
positive x-axis, the upper half-plane, and finally the negative x-axis. -/
def angGroup (v : Pt) : ℕ :=
  if v.y < 0 then 0
  else if v.y = 0 ∧ 0 < v.x then 1
  else if 0 < v.y then 2
  else 3

/-- 2D cross product. -/
def cross2 (a b : Pt) : ℚ := a.x * b.y - a.y * b.x

/-- Exact embedding of the comparator `atan2(a-u) - atan2(b-u) <= 0`:
inside one open half-plane the angular order is decided by the sign of
the cross product. -/
def angLe (u a b : Pt) : Bool :=
  decide (angGroup (sub a u) < angGroup (sub b u) ∨
    (angGroup (sub a u) = angGroup (sub b u) ∧ 0 ≤ cross2 (sub a u) (sub b u)))

/-- Step 2 of `detectRooms`: sort each adjacency list by polar angle. -/
def sortAdjacency (vmap : List ((ℤ × ℤ) × Pt)) (adj : List ((ℤ × ℤ) × List (ℤ × ℤ))) :
    List ((ℤ × ℤ) × List (ℤ × ℤ)) :=
  adj.map (fun kv =>
    (kv.1, sortBy (fun aId bId =>
      angLe ((aFind vmap kv.1).getD ⟨0, 0⟩)
        ((aFind vmap aId).getD ⟨0, 0⟩) ((aFind vmap bId).getD ⟨0, 0⟩)) kv.2))

/-- Detected room (`Room` in `roomDetection.ts`); the id string
`room-...` is modelled as the sorted list of rounded coordinate pairs it
is formatted from (the formatting is injective). -/
structure Room where
  id : List (ℤ × ℤ)
  path : List Pt
  area : ℚ
  centroid : Pt
deriving DecidableEq, Repr

/-- One shoelace pass accumulating (twice the signed area, centroid
numerator x, centroid numerator y), exactly the loop of `detectRooms`. -/
def shoelaceData (ps : List Pt) : ℚ × ℚ × ℚ :=
  (ps.zip (ps.rotate 1)).foldl
    (fun acc pq =>
      (acc.1 + (pq.1.x * pq.2.y - pq.2.x * pq.1.y),
       acc.2.1 + (pq.1.x + pq.2.x) * (pq.1.x * pq.2.y - pq.2.x * pq.1.y),
       acc.2.2 + (pq.1.y + pq.2.y) * (pq.1.x * pq.2.y - pq.2.x * pq.1.y)))
    (0, 0, 0)

/-- Signed shoelace area of a closed polygon (the source's `area` after
the `/= 2`). -/
def shoelaceArea (ps : List Pt) : ℚ := (shoelaceData ps).1 / 2

/-- Comparator `(a.x - b.x) || (a.y - b.y)` as a `<=` test. -/
def lexLe (a b : Pt) : Bool := decide (a.x < b.x ∨ (a.x = b.x ∧ a.y ≤ b.y))

/-- Stable room id: lexicographically sorted, cm-rounded vertices. -/
def roomIdOf (polygon : List Pt) : List (ℤ × ℤ) :=
  (sortBy lexLe polygon).map pointKey

/-- Outcome of one face walk: the visited-edge set after the walk, the
trace, the `invalid` flag and the final `loopCount`. -/
structure WalkOut where
  visited : List ((ℤ × ℤ) × (ℤ × ℤ))
  path : List (ℤ × ℤ)
  invalid : Bool
  count : ℕ
deriving DecidableEq, Repr

/-- The `while (loopCount++ < MAX_LOOPS)` face walk of step 3 of
`detectRooms`.  `fuel` counts the remaining permitted iterations
(initially `MAX_LOOPS = 1000`), `c` is the current `loopCount`; every
exit returns the post-increment `c + 1` exactly as in the source. -/
def faceWalk (adj : List ((ℤ × ℤ) × List (ℤ × ℤ))) (u : ℤ × ℤ)
    (startEdge : (ℤ × ℤ) × (ℤ × ℤ)) :
    ℕ → ℕ → List ((ℤ × ℤ) × (ℤ × ℤ)) → List (ℤ × ℤ) → (ℤ × ℤ) → (ℤ × ℤ) → WalkOut
  | 0, c, visited, path, _, _ => ⟨visited, path, false, c + 1⟩
  | fuel + 1, c, visited, path, curr, next =>
    if next = u then ⟨(curr, next) :: visited, path ++ [next], false, c + 1⟩
    else
      match (aFind adj next).getD [] with
      | [] => ⟨(curr, next) :: visited, path ++ [next], true, c + 1⟩
      | n0 :: ns =>
        match (n0 :: ns).findIdx? (fun k => k = curr) with
        | none => ⟨(curr, next) :: visited, path ++ [next], true, c + 1⟩
        | some idx =>
          let nextIdx := (idx + (n0 :: ns).length - 1) % (n0 :: ns).length
          let next1 := (n0 :: ns).getD nextIdx ⟨0, 0⟩
          if (next, next1) ∈ ((curr, next) :: visited) ∧ (next, next1) ≠ startEdge then
            ⟨(curr, next) :: visited, path ++ [next], true, c + 1⟩
          else
            faceWalk adj u startEdge fuel (c + 1) ((curr, next) :: visited)
              (path ++ [next]) next next1

/-- Launch the face walk for the directed edge `e`, with
`pathVertices = [u]`, `curr = u`, `next = v` as in the source. -/
def traceOf (adj : List ((ℤ × ℤ) × List (ℤ × ℤ)))
    (visited : List ((ℤ × ℤ) × (ℤ × ℤ))) (e : (ℤ × ℤ) × (ℤ × ℤ)) : WalkOut :=
  faceWalk adj e.1 e 1000 0 visited [e.1] e.1 e.2

/-- Trace vertices resolved back to points (`pathVertices.slice(0,-1)`). -/
def mkPolygon (vmap : List ((ℤ × ℤ) × Pt)) (w : WalkOut) : List Pt :=
  w.path.dropLast.map (fun k => (aFind vmap k).getD ⟨0, 0⟩)

/-- The positive-area check and room construction at the end of a trace:
a room is emitted iff the signed shoelace area exceeds `0.1`. -/
def tryRoom (vmap : List ((ℤ × ℤ) × Pt)) (w : WalkOut) : List Room :=
  if 1 / 10 < shoelaceArea (mkPolygon vmap w) then
    [⟨roomIdOf (mkPolygon vmap w), mkPolygon vmap w,
      |shoelaceArea (mkPolygon vmap w)|,
      ⟨(shoelaceData (mkPolygon vmap w)).2.1 / (6 * shoelaceArea (mkPolygon vmap w)),
       (shoelaceData (mkPolygon vmap w)).2.2 / (6 * shoelaceArea (mkPolygon vmap w))⟩⟩]
  else []

/-- Process one directed edge of the face-trace loop: skip if already
visited; otherwise walk the face, discard an invalid, capped or short
trace (keeping its visited edges), and otherwise emit the trace's room
if it passes the area check. -/
def processEdge (adj : List ((ℤ × ℤ) × List (ℤ × ℤ))) (vmap : List ((ℤ × ℤ) × Pt))
    (st : List ((ℤ × ℤ) × (ℤ × ℤ)) × List Room) (e : (ℤ × ℤ) × (ℤ × ℤ)) :
    List ((ℤ × ℤ) × (ℤ × ℤ)) × List Room :=
  if e ∈ st.1 then st
  else
    if (traceOf adj st.1 e).invalid = true ∨ 1000 ≤ (traceOf adj st.1 e).count ∨
        (traceOf adj st.1 e).path.length < 3 then
      ((traceOf adj st.1 e).visited, st.2)
    else
      ((traceOf adj st.1 e).visited, st.2 ++ tryRoom vmap (traceOf adj st.1 e))

/-- All directed edges in iteration order (`for u of adj, for v of u's list`). -/
def allDirectedEdges (adj : List ((ℤ × ℤ) × List (ℤ × ℤ))) :
    List ((ℤ × ℤ) × (ℤ × ℤ)) :=
  adj.flatMap (fun kv => kv.2.map (fun v => (kv.1, v)))

/-- The face-trace loop over a list of directed edges. -/
def processEdges (adj : List ((ℤ × ℤ) × List (ℤ × ℤ))) (vmap : List ((ℤ × ℤ) × Pt))
    (st : List ((ℤ × ℤ) × (ℤ × ℤ)) × List Room) (es : List ((ℤ × ℤ) × (ℤ × ℤ))) :
    List ((ℤ × ℤ) × (ℤ × ℤ)) × List Room :=
  es.foldl (processEdge adj vmap) st

/-- `detectRooms` of `roomDetection.ts`: planarize, build the graph,
sort adjacency by angle, and trace all faces. -/
def detectRooms (walls : List DWall) : List Room :=
  let g := buildGraph (allSegments walls)
  let sadj := sortAdjacency g.vmap g.adj
  (processEdges sadj g.vmap ([], []) (allDirectedEdges sadj)).2


/-! ## Theorems about `detectRooms` -/

/-- Generic fold invariant. -/
theorem foldl_preserve {α σ : Type} (P : σ → Prop) (f : σ → α → σ)
    (hf : ∀ s a, P s → P (f s a)) :
    ∀ (l : List α) (s : σ), P s → P (l.foldl f s) := by
  intro l
  induction l with
  | nil => intro s hs; exact hs
  | cons a l ih => intro s hs; exact ih (f s a) (hf s a hs)

/-- Lookup after `mapAppendCut`: only the touched key changes, and it
gains exactly the new parameter at the end. -/
theorem aFind_mapAppendCut (m : List (ℕ × List ℚ)) (id : ℕ) (t : ℚ) (k : ℕ) :
    aFind (mapAppendCut m id t) k =
      if k = id then some (((aFind m id).getD []) ++ [t]) else aFind m k := by
  induction m with
  | nil =>
    by_cases hk : k = id
    · subst hk; simp [mapAppendCut, aFind]
    · simp [mapAppendCut, aFind, hk, Ne.symm hk]
  | cons kv rest ih =>
    obtain ⟨k0, v0⟩ := kv
    by_cases h1 : k0 = id
    · subst h1
      by_cases h2 : k = k0
      · subst h2; simp [mapAppendCut, aFind]
      · simp [mapAppendCut, aFind, h2, Ne.symm h2]
    · by_cases h2 : k0 = k
      · subst h2
        have hki : ¬(k0 = id) := h1
        simp [mapAppendCut, aFind, hki, Ne.symm hki]
      · simp [mapAppendCut, aFind, h1, h2, ih]

/-- Invariant: every recorded cut parameter lies in `[EPSILON, 1 - EPSILON]`. -/
def cutsInRange (m : List (ℕ × List ℚ)) : Prop :=
  ∀ id ts, aFind m id = some ts → ∀ t ∈ ts, EPSILON ≤ t ∧ t ≤ 1 - EPSILON

theorem addCut_range (m : List (ℕ × List ℚ)) (id : ℕ) (t : ℚ)
    (h : cutsInRange m) : cutsInRange (addCut m id t) := by
  unfold addCut
  by_cases h1 : t < EPSILON ∨ 1 - EPSILON < t
  · rw [if_pos h1]; exact h
  · rw [if_neg h1]
    push_neg at h1
    by_cases h2 : (((aFind m id).getD []).any (fun v => |v - t| < 1 / 1000)) = true
    · rw [if_pos h2]; exact h
    · rw [if_neg h2]
      intro id' ts h' v hv
      rw [aFind_mapAppendCut] at h'
      by_cases hk : id' = id
      · rw [if_pos hk] at h'
        subst hk
        cases h'
        rcases List.mem_append.mp hv with hl | hr
        · cases hm : aFind m id' with
          | none => rw [hm] at hl; simp at hl
          | some ts0 => rw [hm] at hl; exact h id' ts0 hm v hl
        · have hvt : v = t := by simpa using hr
          subst hvt
          exact ⟨h1.1, h1.2⟩
      · rw [if_neg hk] at h'
        exact h id' ts h' v hv

theorem checkPoint_range (m : List (ℕ × List ℚ)) (w1 : DWall) (p : Pt)
    (h : cutsInRange m) : cutsInRange (checkPoint m w1 p) := by
  unfold checkPoint
  by_cases h1 : dsqSeg p w1.start w1.stop < EPSILON ^ 2
  · rw [if_pos h1]; exact addCut_range _ _ _ h
  · rw [if_neg h1]; exact h

/-- C10: the endpoint-exclusion threshold of `addCut` is applied in
normalized parametric units, not meters: every T-junction cut recorded
by `detectRooms`'s planarization scan has parameter `0.05 ≤ t ≤ 0.95`,
so a wall is never split at `t < 0.05` or `t > 0.95` — for a long wall
this excludes a metric band of 5% of its length at each end, far larger
than the 0.05 m snap tolerance. -/
theorem c10_cut_parameter_band (walls : List DWall) (id : ℕ) (ts : List ℚ)
    (h : aFind (computeCuts walls) id = some ts) :
    ∀ t ∈ ts, 1 / 20 ≤ t ∧ t ≤ 19 / 20 := by
  have hrange : cutsInRange (computeCuts walls) := by
    unfold computeCuts
    refine foldl_preserve cutsInRange _ ?_ walls [] ?_
    · intro m w1 hm
      refine foldl_preserve cutsInRange _ ?_ walls m hm
      intro m' w2 hm'
      by_cases hid : w1.id = w2.id
      · rw [if_pos hid]; exact hm'
      · rw [if_neg hid]
        exact checkPoint_range _ _ _ (checkPoint_range _ _ _ hm')
    · intro id' ts' h'
      simp [aFind] at h'
  intro t ht
  have hb := hrange id ts h t ht
  refine ⟨?_, ?_⟩
  · have : EPSILON = 1 / 20 := by norm_num [EPSILON]
    rw [this] at hb; exact hb.1
  · have : 1 - EPSILON = 19 / 20 := by norm_num [EPSILON]
    rw [this] at hb; exact hb.2

/-- Witness for C10: a perpendicular wall touching a 100 m wall at
midspan records the cut `t = 1/2`, inside the band; and a wall touching
the same 100 m wall 4 m from its start (`t = 0.04`, a metric gap 80
times the 0.05 m snap tolerance) records no cut at all. -/
theorem c10_cut_parameter_band_witness :
    ((1 : ℚ) / 20 ≤ 1 / 2 ∧ (1 : ℚ) / 2 ≤ 19 / 20) ∧
    computeCuts [⟨0, ⟨0, 0⟩, ⟨100, 0⟩⟩, ⟨1, ⟨4, 0⟩, ⟨4, 5⟩⟩] = [] :=
  ⟨c10_cut_parameter_band [⟨0, ⟨0, 0⟩, ⟨100, 0⟩⟩, ⟨1, ⟨50, 0⟩, ⟨50, 5⟩⟩] 0 [1 / 2]
      (by with_unfolding_all rfl) (1 / 2) (List.mem_singleton.mpr rfl),
   by with_unfolding_all rfl⟩

/-- Any room emitted by the end-of-trace check has signed shoelace area
strictly above `0.1` and stores its absolute value. -/
theorem tryRoom_mem (vmap : List ((ℤ × ℤ) × Pt)) (w : WalkOut) (r : Room)
    (h : r ∈ tryRoom vmap w) :
    1 / 10 < shoelaceArea r.path ∧ r.area = |shoelaceArea r.path| := by
  unfold tryRoom at h
  by_cases h1 : 1 / 10 < shoelaceArea (mkPolygon vmap w)
  · rw [if_pos h1] at h
    have hr : r = ⟨roomIdOf (mkPolygon vmap w), mkPolygon vmap w,
        |shoelaceArea (mkPolygon vmap w)|,
        ⟨(shoelaceData (mkPolygon vmap w)).2.1 / (6 * shoelaceArea (mkPolygon vmap w)),
         (shoelaceData (mkPolygon vmap w)).2.2 / (6 * shoelaceArea (mkPolygon vmap w))⟩⟩ := by
      simpa using h
    subst hr
    exact ⟨h1, rfl⟩
  · rw [if_neg h1] at h
    simp at h

/-- `processEdge` only ever appends rooms passing the area check. -/
theorem processEdge_mem (adj : List ((ℤ × ℤ) × List (ℤ × ℤ)))
    (vmap : List ((ℤ × ℤ) × Pt)) (st : List ((ℤ × ℤ) × (ℤ × ℤ)) × List Room)
    (e : (ℤ × ℤ) × (ℤ × ℤ)) (r : Room) (h : r ∈ (processEdge adj vmap st e).2) :
    r ∈ st.2 ∨ (1 / 10 < shoelaceArea r.path ∧ r.area = |shoelaceArea r.path|) := by
  unfold processEdge at h
  by_cases h1 : e ∈ st.1
  · rw [if_pos h1] at h; exact Or.inl h
  · rw [if_neg h1] at h
    by_cases h2 : (traceOf adj st.1 e).invalid = true ∨ 1000 ≤ (traceOf adj st.1 e).count ∨
        (traceOf adj st.1 e).path.length < 3
    · rw [if_pos h2] at h; exact Or.inl h
    · rw [if_neg h2] at h
      rcases List.mem_append.mp h with hl | hr
      · exact Or.inl hl
      · exact Or.inr (tryRoom_mem _ _ _ hr)

/-- Fold form of `processEdge_mem`. -/
theorem processEdges_mem (adj : List ((ℤ × ℤ) × List (ℤ × ℤ)))
    (vmap : List ((ℤ × ℤ) × Pt)) :
    ∀ (es : List ((ℤ × ℤ) × (ℤ × ℤ))) (st : List ((ℤ × ℤ) × (ℤ × ℤ)) × List Room)
      (r : Room), r ∈ (processEdges adj vmap st es).2 →
      r ∈ st.2 ∨ (1 / 10 < shoelaceArea r.path ∧ r.area = |shoelaceArea r.path|) := by
  intro es
  induction es with
  | nil => intro st r h; exact Or.inl h
  | cons e es ih =>
    intro st r h
    have h' := ih (processEdge adj vmap st e) r h
    rcases h' with h' | h'
    · exact processEdge_mem adj vmap st e r h'
    · exact Or.inr h'

/-- C1: every room returned by `detectRooms` comes from a face trace
whose signed shoelace area exceeds `0.1`; its stored `area` is the
absolute value of the shoelace area of its `path` polygon, hence is
itself strictly greater than `0.1`.  Consequently a trace whose signed
shoelace area is non-positive or at most `0.1` contributes no room. -/
theorem c1_room_area_shoelace (walls : List DWall) (r : Room)
    (h : r ∈ detectRooms walls) :
    1 / 10 < shoelaceArea r.path ∧ r.area = |shoelaceArea r.path| ∧ 1 / 10 < r.area := by
  have h' := processEdges_mem _ _ _ _ r h
  rcases h' with h' | h'
  · simp at h'
  · exact ⟨h'.1, h'.2, by rw [h'.2, abs_of_pos (lt_trans (by norm_num) h'.1)]; exact h'.1⟩

/-- Four walls forming a 4 m × 3 m rectangle. -/
def sqWalls : List DWall :=
  [⟨0, ⟨0, 0⟩, ⟨4, 0⟩⟩, ⟨1, ⟨4, 0⟩, ⟨4, 3⟩⟩, ⟨2, ⟨4, 3⟩, ⟨0, 3⟩⟩, ⟨3, ⟨0, 3⟩, ⟨0, 0⟩⟩]

/-- The room detected inside `sqWalls`. -/
def sqRoom : Room :=
  ⟨[(0, 0), (0, 300), (400, 0), (400, 300)],
   [⟨0, 0⟩, ⟨4, 0⟩, ⟨4, 3⟩, ⟨0, 3⟩], 12, ⟨2, 3 / 2⟩⟩

/-- Witness for C1 on a concrete closed rectangle: `detectRooms` finds
exactly one room and C1's bounds hold for it. -/
theorem c1_room_area_shoelace_witness :
    detectRooms sqWalls = [sqRoom] ∧
    (1 / 10 < shoelaceArea sqRoom.path ∧ sqRoom.area = |shoelaceArea sqRoom.path| ∧
      1 / 10 < sqRoom.area) :=
  ⟨by with_unfolding_all rfl,
   c1_room_area_shoelace sqWalls sqRoom (by
    rw [show detectRooms sqWalls = [sqRoom] from by with_unfolding_all rfl]
    exact List.mem_singleton.mpr rfl)⟩

/-- C2: `detectRooms` is a total function — it is definitionally the
fold of `processEdge` over every directed edge of the planarized wall
graph, so it terminates and raises no error on every finite wall list;
and a face trace that fails (`invalid`, set on a dead end or on
revisiting an already-visited directed edge other than its start edge)
or that exhausts the 1000-step cap contributes no room, while the fold
still processes all remaining directed edges from the updated
visited-edge set. -/
theorem c2_trace_discarded (walls : List DWall)
    (adj : List ((ℤ × ℤ) × List (ℤ × ℤ))) (vmap : List ((ℤ × ℤ) × Pt))
    (st : List ((ℤ × ℤ) × (ℤ × ℤ)) × List Room) (e : (ℤ × ℤ) × (ℤ × ℤ))
    (es : List ((ℤ × ℤ) × (ℤ × ℤ)))
    (hfail : e ∉ st.1 →
      (traceOf adj st.1 e).invalid = true ∨ 1000 ≤ (traceOf adj st.1 e).count) :
    detectRooms walls =
      (processEdges
        (sortAdjacency (buildGraph (allSegments walls)).vmap (buildGraph (allSegments walls)).adj)
        (buildGraph (allSegments walls)).vmap ([], [])
        (allDirectedEdges
          (sortAdjacency (buildGraph (allSegments walls)).vmap
            (buildGraph (allSegments walls)).adj))).2 ∧
    (processEdge adj vmap st e).2 = st.2 ∧
    processEdges adj vmap st (e :: es) = processEdges adj vmap (processEdge adj vmap st e) es := by
  refine ⟨rfl, ?_, rfl⟩
  unfold processEdge
  by_cases h1 : e ∈ st.1
  · rw [if_pos h1]
  · rw [if_neg h1]
    have h2 : (traceOf adj st.1 e).invalid = true ∨ 1000 ≤ (traceOf adj st.1 e).count ∨
        (traceOf adj st.1 e).path.length < 3 := by
      rcases hfail h1 with h | h
      · exact Or.inl h
      · exact Or.inr (Or.inl h)
    rw [if_pos h2]

/-- Adjacency with a dead end: vertex `(0,0)` points to `(1,0)`, which
has no adjacency entry at all. -/
def deadEndAdj : List ((ℤ × ℤ) × List (ℤ × ℤ)) := [((0, 0), [(1, 0)])]

/-- Witness for C2: on the dead-end graph the trace of `(0,0)→(1,0)` is
invalid, the edge yields no room, and the fold equation still holds. -/
theorem c2_trace_discarded_witness :
    detectRooms [] =
      (processEdges
        (sortAdjacency (buildGraph (allSegments [])).vmap (buildGraph (allSegments [])).adj)
        (buildGraph (allSegments [])).vmap ([], [])
        (allDirectedEdges
          (sortAdjacency (buildGraph (allSegments [])).vmap
            (buildGraph (allSegments [])).adj))).2 ∧
    (processEdge deadEndAdj [] ([], []) ((0, 0), (1, 0))).2 = ([] : List Room) ∧
    processEdges deadEndAdj [] ([], []) [((0, 0), (1, 0))] =
      processEdges deadEndAdj [] (processEdge deadEndAdj [] ([], []) ((0, 0), (1, 0))) [] :=
  c2_trace_discarded [] deadEndAdj [] ([], []) ((0, 0), (1, 0)) []
    (fun _ => Or.inl (by with_unfolding_all rfl))

/-! ## Topology Normalizer (`AIService.convertVisionToWalls`, planarization pass) -/

/-- Wall candidate as processed by the normalizer pass.  The `id` field
is omitted: the pass never reads it and stamps every reconstructed
piece with a fresh `uuidv4()`, so wall identity across runs is
geometric.  `height` is likewise never read by the pass. -/
structure NWall where
  start : Pt
  stop : Pt
  thickness : ℚ
  isVirtual : Bool
deriving DecidableEq, Repr

/-- `SNAP_DIST = 0.30`, the V7 clustering radius. -/
def SNAP_DIST : ℚ := 3 / 10

/-- `FOOTPRINT_SNAP_DIST = 0.60`, the aggressive footprint radius. -/
def FOOTPRINT_SNAP_DIST : ℚ := 3 / 5

/-- Modelled from the spec: `getSegmentIntersection` is imported by the
AI service from the geometry kernel but its definition is missing from
`src/`; per spec §4.1 it returns the "proper intersection point of two
finite segments, or null if parallel/non-intersecting within their
bounds" — the standard parametric implementation. -/
def getSegmentIntersection (p1 p2 p3 p4 : Pt) : Option Pt :=
  let d := (p2.x - p1.x) * (p4.y - p3.y) - (p2.y - p1.y) * (p4.x - p3.x)
  if d = 0 then none
  else
    let t := ((p3.x - p1.x) * (p4.y - p3.y) - (p3.y - p1.y) * (p4.x - p3.x)) / d
    let s := ((p3.x - p1.x) * (p2.y - p1.y) - (p3.y - p1.y) * (p2.x - p1.x)) / d
    if 0 ≤ t ∧ t ≤ 1 ∧ 0 ≤ s ∧ s ≤ 1 then
      some ⟨p1.x + t * (p2.x - p1.x), p1.y + t * (p2.y - p1.y)⟩
    else none

/-- T-junction seed: the projection of endpoint `p` onto wall `w` when
it lands strictly inside and within `SNAP_DIST`. -/
def projSeed (p : Pt) (w : NWall) : List Pt :=
  if 0 < (projectPointOnSegment p w.start w.stop).t ∧
      (projectPointOnSegment p w.start w.stop).t < 1 ∧
      dsq p (projectPointOnSegment p w.start w.stop).point < SNAP_DIST ^ 2 then
    [(projectPointOnSegment p w.start w.stop).point]
  else []

/-- Seeds contributed by the `i < j` double loop: pairwise segment
intersections plus the four endpoint projections of each pair. -/
def pairSeeds : List NWall → List Pt
  | [] => []
  | w1 :: rest =>
    rest.flatMap (fun w2 =>
      (getSegmentIntersection w1.start w1.stop w2.start w2.stop).toList ++
      projSeed w1.start w2 ++ projSeed w1.stop w2 ++
      projSeed w2.start w1 ++ projSeed w2.stop w1) ++ pairSeeds rest

/-- Step 1 of the pass: all endpoints, then all pairwise seeds. -/
def allSeeds (candidates : List NWall) : List Pt :=
  candidates.flatMap (fun w => [w.start, w.stop]) ++ pairSeeds candidates

/-- Aggressive footprint snapping of one seed: project onto the first
footprint wall within `FOOTPRINT_SNAP_DIST` (the loop `break`s). -/
def footprintSnap (fp : List (Pt × Pt)) (s : Pt) : Pt :=
  match fp.find? (fun fw =>
      decide (dsq s (projectPointOnSegment s fw.1 fw.2).point < FOOTPRINT_SNAP_DIST ^ 2)) with
  | some fw => (projectPointOnSegment s fw.1 fw.2).point
  | none => s

/-- Step 2 of the pass: greedy first-wins clustering within `SNAP_DIST`. -/
def clusterSeeds (seeds : List Pt) : List Pt :=
  seeds.foldl
    (fun acc s => if acc.any (fun mv => decide (dsq s mv < SNAP_DIST ^ 2)) then acc
      else acc ++ [s])
    []

/-- Master vertices of the pass.  The source snaps each seed to the
footprint immediately before its cluster test; since the snap does not
depend on the accumulated masters this equals snapping all seeds first
and then clustering. -/
def masterVerticesOf (fp : List (Pt × Pt)) (candidates : List NWall) : List Pt :=
  clusterSeeds ((allSeeds candidates).map (footprintSnap fp))

/-- Step 3 of the pass: split one candidate at every master vertex
within 0.05 of it, in parameter order, skipping `< 0.001` slivers. -/
def reconstructWall (masters : List Pt) (base : NWall) : List NWall :=
  let sorted := sortBy (fun a b => decide (a.2 ≤ b.2))
    (masters.filterMap (fun mv =>
      if dsq mv (projectPointOnSegment mv base.start base.stop).point < (1 / 20) ^ 2 then
        some (mv, (projectPointOnSegment mv base.start base.stop).t)
      else none))
  (sorted.zip sorted.tail).filterMap (fun pq =>
    if pq.2.2 - pq.1.2 < 1 / 1000 then none
    else some { base with start := pq.1.1, stop := pq.2.1 })

/-- Endpoint-pair duplicate test of step 4 (either order, 0.01 m). -/
def wallMatches (p f : NWall) : Prop :=
  (dsq p.start f.start < (1 / 100) ^ 2 ∧ dsq p.stop f.stop < (1 / 100) ^ 2) ∨
  (dsq p.start f.stop < (1 / 100) ^ 2 ∧ dsq p.stop f.start < (1 / 100) ^ 2)

instance (p f : NWall) : Decidable (wallMatches p f) := by
  unfold wallMatches; infer_instance

/-- Scan `finalWalls` for the first duplicate of `p`; on a hit, replace
a virtual duplicate by a physical `p` in place and stop. -/
def dedupStep (p : NWall) : List NWall → Option (List NWall)
  | [] => none
  | f :: rest =>
    if wallMatches p f then
      some ((if p.isVirtual = false ∧ f.isVirtual = true then p else f) :: rest)
    else (dedupStep p rest).map (fun l => f :: l)

/-- Step 4 of the pass: final deduplication. -/
def dedupWalls (pieces : List NWall) : List NWall :=
  pieces.foldl
    (fun acc p => match dedupStep p acc with
      | some acc' => acc'
      | none => acc ++ [p])
    []

/-- The whole Topology Normalizer pass: seeds, clustering,
reconstruction, deduplication. -/
def normalizePass (fp : List (Pt × Pt)) (candidates : List NWall) : List NWall :=
  dedupWalls (candidates.flatMap (reconstructWall (masterVerticesOf fp candidates)))

/-! ## C3, C4: properties of the normalizer pass -/

/-- Wall set refuting idempotence of the full pass: a 10 m wall whose
clustered endpoints sit 0.049 off its line, plus a wall whose endpoint
`(5, 0.09)` is 0.09 m from the original candidate (outside the 0.05 m
reconstruction tolerance) but only 0.041 m from the reconstructed
piece (inside it). -/
def cexWalls : List NWall :=
  [⟨⟨0, 49 / 1000⟩, ⟨0, -2⟩, 1 / 10, false⟩,
   ⟨⟨10, 49 / 1000⟩, ⟨10, -2⟩, 1 / 10, false⟩,
   ⟨⟨0, 0⟩, ⟨10, 0⟩, 1 / 10, false⟩,
   ⟨⟨5, 9 / 100⟩, ⟨5, 3⟩, 1 / 10, false⟩]

/-- Counterexample to C3: the Topology Normalizer pass is not
idempotent — on `cexWalls` the first run returns 4 walls, and running
the pass again on that very output performs one further split,
returning 5 walls, so the output is not a fixed point. -/
theorem c3_not_idempotent_cex :
    normalizePass [] (normalizePass [] cexWalls) ≠ normalizePass [] cexWalls ∧
    (normalizePass [] cexWalls).length = 4 ∧
    (normalizePass [] (normalizePass [] cexWalls)).length = 5 := by
  refine ⟨?_, by with_unfolding_all rfl, by with_unfolding_all rfl⟩
  intro h
  have h4 : (normalizePass [] cexWalls).length = 4 := by with_unfolding_all rfl
  have h5 : (normalizePass [] (normalizePass [] cexWalls)).length = 5 := by
    with_unfolding_all rfl
  rw [h, h4] at h5
  exact absurd h5 (by norm_num)

/-- Master vertices accepted later are at least `SNAP_DIST` from every
earlier one. -/
theorem clusterSeeds_step_pairwise (acc : List Pt) (s : Pt)
    (h : List.Pairwise (fun a b => ¬dsq b a < SNAP_DIST ^ 2) acc) :
    List.Pairwise (fun a b => ¬dsq b a < SNAP_DIST ^ 2)
      (if acc.any (fun mv => decide (dsq s mv < SNAP_DIST ^ 2)) then acc
        else acc ++ [s]) := by
  by_cases hc : acc.any (fun mv => decide (dsq s mv < SNAP_DIST ^ 2)) = true
  · rw [if_pos hc]; exact h
  · rw [if_neg hc]
    rw [List.pairwise_append]
    refine ⟨h, List.pairwise_singleton _ _, ?_⟩
    intro a ha b hb
    have hb' : b = s := by simpa using hb
    subst hb'
    intro hlt
    apply hc
    rw [List.any_eq_true]
    exact ⟨a, ha, by simpa using hlt⟩

theorem clusterSeeds_pairwise (seeds : List Pt) :
    List.Pairwise (fun a b => ¬dsq b a < SNAP_DIST ^ 2) (clusterSeeds seeds) := by
  unfold clusterSeeds
  refine foldl_preserve (List.Pairwise (fun a b => ¬dsq b a < SNAP_DIST ^ 2)) _
    ?_ seeds [] (List.Pairwise.nil)
  intro acc s h
  exact clusterSeeds_step_pairwise acc s h

/-- Folding the cluster step over a list already pairwise-separated
from the accumulator appends it unchanged. -/
theorem clusterSeeds_fold_fixed :
    ∀ (l acc : List Pt),
      List.Pairwise (fun a b => ¬dsq b a < SNAP_DIST ^ 2) (acc ++ l) →
      l.foldl
        (fun acc s => if acc.any (fun mv => decide (dsq s mv < SNAP_DIST ^ 2)) then acc
          else acc ++ [s]) acc = acc ++ l := by
  intro l
  induction l with
  | nil => intro acc _; simp
  | cons s l ih =>
    intro acc h
    have hfar : ∀ a ∈ acc, ¬dsq s a < SNAP_DIST ^ 2 := by
      intro a ha
      have := (List.pairwise_append.mp h).2.2 a ha s (by simp)
      exact this
    have hany : acc.any (fun mv => decide (dsq s mv < SNAP_DIST ^ 2)) = false := by
      rw [List.any_eq_false]
      intro a ha
      simpa using hfar a ha
    rw [List.foldl_cons, hany]
    simp only [Bool.false_eq_true, if_false]
    have h' : List.Pairwise (fun a b => ¬dsq b a < SNAP_DIST ^ 2) ((acc ++ [s]) ++ l) := by
      simpa using h
    rw [ih (acc ++ [s]) h']
    simp

/-- C3 amended: the clustering stage of the pass really is idempotent —
the master vertices it produces are pairwise at least `SNAP_DIST`
apart, so re-clustering them performs no further merge and returns
them unchanged.  (The full pass is not a fixed point; see
`c3_not_idempotent_cex`.) -/
theorem c3_cluster_idempotent (seeds : List Pt) :
    List.Pairwise (fun a b => ¬dsq b a < SNAP_DIST ^ 2) (clusterSeeds seeds) ∧
    clusterSeeds (clusterSeeds seeds) = clusterSeeds seeds := by
  refine ⟨clusterSeeds_pairwise seeds, ?_⟩
  have h := clusterSeeds_pairwise seeds
  have := clusterSeeds_fold_fixed (clusterSeeds seeds) [] (by simpa using h)
  simpa [clusterSeeds] using this

theorem wallMatches_symm (p q : NWall) (h : wallMatches p q) : wallMatches q p := by
  unfold wallMatches at h ⊢
  rcases h with ⟨h1, h2⟩ | ⟨h1, h2⟩
  · exact Or.inl ⟨by rwa [dsq_comm], by rwa [dsq_comm]⟩
  · exact Or.inr ⟨by rwa [dsq_comm], by rwa [dsq_comm]⟩

/-- C4: in the final deduplication, a pair of pieces whose endpoint
pairs match within 0.01 m (in either order) yields exactly one output
wall, and when exactly one of the two is physical the survivor is the
physical one, whichever of the two is scanned first. -/
theorem c4_dedup_keeps_physical (p q : NWall) (h : wallMatches p q) :
    (dedupWalls [p, q]).length = 1 ∧
    (p.isVirtual = false → q.isVirtual = true → dedupWalls [p, q] = [p]) ∧
    (p.isVirtual = true → q.isVirtual = false → dedupWalls [p, q] = [q]) := by
  have key : dedupWalls [p, q] =
      [if q.isVirtual = false ∧ p.isVirtual = true then q else p] := by
    unfold dedupWalls
    simp only [List.foldl_cons, List.foldl_nil]
    rw [show dedupStep p [] = none from rfl]
    simp only [List.nil_append]
    unfold dedupStep
    rw [if_pos (wallMatches_symm p q h)]
  refine ⟨by rw [key]; rfl, ?_, ?_⟩
  · intro hp hq
    rw [key, if_neg]
    intro hc
    rw [hp] at hc
    exact Bool.false_ne_true hc.2
  · intro hp hq
    rw [key, if_pos ⟨hq, hp⟩]

/-- Witness for C4: a coincident physical/virtual pair collapses to the
physical wall in both scan orders. -/
theorem c4_dedup_keeps_physical_witness :
    (dedupWalls [(⟨⟨0, 0⟩, ⟨1, 0⟩, 1 / 10, false⟩ : NWall),
                 (⟨⟨0, 0⟩, ⟨1, 0⟩, 1 / 20, true⟩ : NWall)]).length = 1 ∧
    dedupWalls [(⟨⟨0, 0⟩, ⟨1, 0⟩, 1 / 10, false⟩ : NWall),
                (⟨⟨0, 0⟩, ⟨1, 0⟩, 1 / 20, true⟩ : NWall)] =
      [⟨⟨0, 0⟩, ⟨1, 0⟩, 1 / 10, false⟩] ∧
    dedupWalls [(⟨⟨0, 0⟩, ⟨1, 0⟩, 1 / 20, true⟩ : NWall),
                (⟨⟨0, 0⟩, ⟨1, 0⟩, 1 / 10, false⟩ : NWall)] =
      [⟨⟨0, 0⟩, ⟨1, 0⟩, 1 / 10, false⟩] :=
  ⟨(c4_dedup_keeps_physical _ _ (of_decide_eq_true (by with_unfolding_all rfl))).1,
   (c4_dedup_keeps_physical _ _ (of_decide_eq_true (by with_unfolding_all rfl))).2.1 rfl rfl,
   (c4_dedup_keeps_physical _ _ (of_decide_eq_true (by with_unfolding_all rfl))).2.2 rfl rfl⟩

/-! ## Snapping engine (`snapToVertex` in `useCanvas.ts`) -/

/-- Grid rounding to the nearest 0.05 m cell:
`Math.round(v / 0.05) * 0.05`. -/
def gridRound (v : ℚ) : ℚ := (jsRound (v / (1 / 20)) : ℚ) * (1 / 20)

/-- All wall endpoints, in wall order (`points` in step 4). -/
def wallEndpoints (walls : List NWall) : List Pt :=
  walls.flatMap (fun w => [w.start, w.stop])

/-- `v` is below the current best alignment distance (`Infinity = none`). -/
def optLt (v : ℚ) : Option ℚ → Prop
  | none => True
  | some d => v < d

instance (v : ℚ) : (o : Option ℚ) → Decidable (optLt v o)
  | none => isTrue trivial
  | some d => inferInstanceAs (Decidable (v < d))

/-- One axis of the step-4 alignment update: override when the
coordinate is within the threshold and strictly closer than the best
so far. -/
def axisStep (θ px : ℚ) (st : ℚ × Option ℚ) (c : ℚ) : ℚ × Option ℚ :=
  if |px - c| < θ ∧ optLt (|px - c|) st.2 then (c, some (|px - c|)) else st

/-- Alignment-snap fold state: snapped x/y and best distances so far. -/
structure AlignSt where
  sx : ℚ
  sxd : Option ℚ
  sy : ℚ
  syd : Option ℚ
deriving Repr

/-- One iteration of the step-4 loop, both axes. -/
def alignStep (θ : ℚ) (p : Pt) (st : AlignSt) (pt : Pt) : AlignSt :=
  ⟨(axisStep θ p.x (st.sx, st.sxd) pt.x).1, (axisStep θ p.x (st.sx, st.sxd) pt.x).2,
   (axisStep θ p.y (st.sy, st.syd) pt.y).1, (axisStep θ p.y (st.sy, st.syd) pt.y).2⟩

/-- Steps 3–4: grid baseline then per-axis alignment override. -/
def snapAlign (θ : ℚ) (p : Pt) (pts : List Pt) : AlignSt :=
  pts.foldl (alignStep θ p) ⟨gridRound p.x, none, gridRound p.y, none⟩

/-- `snapToVertex` of `useCanvas.ts`: vertex snap, then wall-body snap,
then grid snap with axis-alignment override. -/
def snapToVertex (walls : List NWall) (p : Pt) (θ : ℚ) : Pt :=
  match walls.findSome? (fun w =>
    if dsq p w.start < θ ^ 2 then some w.start
    else if dsq p w.stop < θ ^ 2 then some w.stop else none) with
  | some q => q
  | none =>
    match walls.findSome? (fun w =>
      if dsqSeg p w.start w.stop < θ ^ 2 then
        some (projectPointOnSegment p w.start w.stop).point
      else none) with
    | some q => q
    | none => ⟨(snapAlign θ p (wallEndpoints walls)).sx, (snapAlign θ p (wallEndpoints walls)).sy⟩

theorem findSome_mem {α β : Type} (f : α → Option β) :
    ∀ (l : List α) (b : β), l.findSome? f = some b → ∃ a ∈ l, f a = some b := by
  intro l
  induction l with
  | nil => intro b h; simp [List.findSome?] at h
  | cons a l ih =>
    intro b h
    rw [List.findSome?_cons] at h
    cases hfa : f a with
    | some v => rw [hfa] at h; cases h; exact ⟨a, by simp, hfa⟩
    | none =>
      rw [hfa] at h
      obtain ⟨a2, ha2, hfa2⟩ := ih b h
      exact ⟨a2, by simp [ha2], hfa2⟩

theorem findSome_none {α β : Type} (f : α → Option β) :
    ∀ (l : List α), (∀ a ∈ l, f a = none) → l.findSome? f = none := by
  intro l
  induction l with
  | nil => intro _; simp [List.findSome?]
  | cons a l ih =>
    intro h
    rw [List.findSome?_cons, h a (by simp)]
    exact ih (fun a2 ha2 => h a2 (by simp [ha2]))

/-- Full characterization of the step-4 per-axis fold: the best
distance stays below the threshold, the snapped value is the initial
value or a visited coordinate at its own distance, the best distance
never increases, it is `none` only if it started `none`, and it ends
at most every in-threshold visited distance. -/
theorem axisFold_char (θ px : ℚ) :
    ∀ (cs : List ℚ) (sx : ℚ) (sd : Option ℚ),
      (∀ d, sd = some d → d < θ) →
      (∀ d, (cs.foldl (axisStep θ px) (sx, sd)).2 = some d → d < θ) ∧
      ((cs.foldl (axisStep θ px) (sx, sd)) = (sx, sd) ∨
        ∃ c ∈ cs, (cs.foldl (axisStep θ px) (sx, sd)).1 = c ∧
          (cs.foldl (axisStep θ px) (sx, sd)).2 = some (|px - c|)) ∧
      (∀ d d2, sd = some d → (cs.foldl (axisStep θ px) (sx, sd)).2 = some d2 → d2 ≤ d) ∧
      ((cs.foldl (axisStep θ px) (sx, sd)).2 = none → sd = none) ∧
      (∀ c ∈ cs, |px - c| < θ →
        ∃ d2, (cs.foldl (axisStep θ px) (sx, sd)).2 = some d2 ∧ d2 ≤ |px - c|) := by
  intro cs
  induction cs with
  | nil =>
    intro sx sd hsd
    refine ⟨hsd, Or.inl rfl, ?_, fun h => h, ?_⟩
    · intro d d2 h1 h2
      rw [List.foldl_nil] at h2
      rw [h1] at h2
      cases h2
      exact le_refl d
    · intro c hc; simp at hc
  | cons c cs ih =>
    intro sx sd hsd
    rw [List.foldl_cons]
    by_cases hcond : |px - c| < θ ∧ optLt (|px - c|) sd
    · rw [show axisStep θ px (sx, sd) c = (c, some (|px - c|)) from by
        unfold axisStep; rw [if_pos hcond]]
      have hsd' : ∀ d, (some (|px - c|) : Option ℚ) = some d → d < θ := by
        intro d h; cases h; exact hcond.1
      obtain ⟨ih1, ih2, ih3, ih4, ih5⟩ := ih c (some (|px - c|)) hsd'
      refine ⟨ih1, ?_, ?_, ?_, ?_⟩
      · rcases ih2 with h | ⟨c2, hc2, h1, h2⟩
        · exact Or.inr ⟨c, by simp, by rw [h], by rw [h]⟩
        · exact Or.inr ⟨c2, by simp [hc2], h1, h2⟩
      · intro d d2 h1 h2
        have hle := ih3 (|px - c|) d2 rfl h2
        have hlt : |px - c| < d := by
          have := hcond.2
          rw [h1] at this
          exact this
        exact le_trans hle (le_of_lt hlt)
      · intro h
        exact absurd (ih4 h) (by simp)
      · intro c2 hc2 hlt
        rcases (by simpa using hc2 : c2 = c ∨ c2 ∈ cs) with hc2 | hc2
        · subst hc2
          cases hr2 : (cs.foldl (axisStep θ px) (c2, some (|px - c2|))).2 with
          | none => exact absurd (ih4 hr2) (by simp)
          | some d2 => exact ⟨d2, rfl, ih3 (|px - c2|) d2 rfl hr2⟩
        · exact ih5 c2 hc2 hlt
    · rw [show axisStep θ px (sx, sd) c = (sx, sd) from by
        unfold axisStep; rw [if_neg hcond]]
      obtain ⟨ih1, ih2, ih3, ih4, ih5⟩ := ih sx sd hsd
      refine ⟨ih1, ?_, ih3, ih4, ?_⟩
      · rcases ih2 with h | ⟨c2, hc2, h1, h2⟩
        · exact Or.inl h
        · exact Or.inr ⟨c2, by simp [hc2], h1, h2⟩
      · intro c2 hc2 hlt
        rcases (by simpa using hc2 : c2 = c ∨ c2 ∈ cs) with hc2 | hc2
        · subst hc2
          have hsome : ∃ d, sd = some d ∧ d ≤ |px - c2| := by
            cases hd : sd with
            | none => exact absurd ⟨hlt, by rw [hd]; trivial⟩ hcond
            | some d =>
              refine ⟨d, rfl, ?_⟩
              by_contra hdc
              exact hcond ⟨hlt, by rw [hd]; exact lt_of_not_le hdc⟩
          obtain ⟨d, hd, hdle⟩ := hsome
          cases hr2 : (cs.foldl (axisStep θ px) (sx, sd)).2 with
          | none => rw [ih4 hr2] at hd; cases hd
          | some d2 => exact ⟨d2, rfl, le_trans (ih3 d d2 hd hr2) hdle⟩
        · exact ih5 c2 hc2 hlt

/-- The two axes of the alignment fold are independent. -/
theorem snapAlign_proj (θ : ℚ) (p : Pt) :
    ∀ (pts : List Pt) (st : AlignSt),
      ((pts.foldl (alignStep θ p) st).sx, (pts.foldl (alignStep θ p) st).sxd) =
        (pts.map (fun q => q.x)).foldl (axisStep θ p.x) (st.sx, st.sxd) ∧
      ((pts.foldl (alignStep θ p) st).sy, (pts.foldl (alignStep θ p) st).syd) =
        (pts.map (fun q => q.y)).foldl (axisStep θ p.y) (st.sy, st.syd) := by
  intro pts
  induction pts with
  | nil => intro st; exact ⟨rfl, rfl⟩
  | cons q pts ih =>
    intro st
    rw [List.foldl_cons, List.map_cons, List.map_cons, List.foldl_cons, List.foldl_cons]
    have hx := (ih (alignStep θ p st q)).1
    have hy := (ih (alignStep θ p st q)).2
    constructor
    · rw [hx]; rfl
    · rw [hy]; rfl


/-- C5: strict priority of `snapToVertex` at the default 0.05 m
threshold.  (1) If `p` is within 0.05 of some wall's stored `start` or
`end`, the result is such a stored endpoint (itself within 0.05).
(2) Otherwise, if `p` is within 0.05 of some wall's body, the result is
the clamped orthogonal projection onto such a wall.  (3) Otherwise each
axis independently is either the 0.05-grid rounding of `p` (when no
wall endpoint's coordinate is within 0.05), or the coordinate of an
existing wall endpoint at minimal axis distance below 0.05. -/
theorem c5_snap_priority (walls : List NWall) (p : Pt) :
    ((∃ w ∈ walls, dsq p w.start < (1 / 20) ^ 2 ∨ dsq p w.stop < (1 / 20) ^ 2) →
      ∃ w ∈ walls,
        (snapToVertex walls p (1 / 20) = w.start ∧ dsq p w.start < (1 / 20) ^ 2) ∨
        (snapToVertex walls p (1 / 20) = w.stop ∧ dsq p w.stop < (1 / 20) ^ 2)) ∧
    ((∀ w ∈ walls, ¬dsq p w.start < (1 / 20) ^ 2 ∧ ¬dsq p w.stop < (1 / 20) ^ 2) →
      (∃ w ∈ walls, dsqSeg p w.start w.stop < (1 / 20) ^ 2) →
      ∃ w ∈ walls, dsqSeg p w.start w.stop < (1 / 20) ^ 2 ∧
        snapToVertex walls p (1 / 20) = (projectPointOnSegment p w.start w.stop).point) ∧
    ((∀ w ∈ walls, ¬dsq p w.start < (1 / 20) ^ 2 ∧ ¬dsq p w.stop < (1 / 20) ^ 2) →
      (∀ w ∈ walls, ¬dsqSeg p w.start w.stop < (1 / 20) ^ 2) →
      (((snapToVertex walls p (1 / 20)).x = gridRound p.x ∧
          ∀ q ∈ wallEndpoints walls, ¬|p.x - q.x| < 1 / 20) ∨
        (∃ q ∈ wallEndpoints walls, (snapToVertex walls p (1 / 20)).x = q.x ∧
          |p.x - q.x| < 1 / 20 ∧
          ∀ q2 ∈ wallEndpoints walls, |p.x - q.x| ≤ |p.x - q2.x|)) ∧
      (((snapToVertex walls p (1 / 20)).y = gridRound p.y ∧
          ∀ q ∈ wallEndpoints walls, ¬|p.y - q.y| < 1 / 20) ∨
        (∃ q ∈ wallEndpoints walls, (snapToVertex walls p (1 / 20)).y = q.y ∧
          |p.y - q.y| < 1 / 20 ∧
          ∀ q2 ∈ wallEndpoints walls, |p.y - q.y| ≤ |p.y - q2.y|))) := by
  refine ⟨?_, ?_, ?_⟩
  · intro hex
    unfold snapToVertex
    cases hf : walls.findSome? (fun w =>
        if dsq p w.start < (1 / 20 : ℚ) ^ 2 then some w.start
        else if dsq p w.stop < (1 / 20 : ℚ) ^ 2 then some w.stop else none) with
    | none =>
      exfalso
      obtain ⟨w, hw, hcase⟩ := hex
      have hnone := List.findSome?_eq_none_iff.mp hf w hw
      rcases hcase with hs | hs
      · rw [if_pos hs] at hnone; cases hnone
      · by_cases h1 : dsq p w.start < (1 / 20 : ℚ) ^ 2
        · rw [if_pos h1] at hnone; cases hnone
        · rw [if_neg h1, if_pos hs] at hnone; cases hnone
    | some q =>
      obtain ⟨w, hw, hfw⟩ := findSome_mem _ walls q hf
      refine ⟨w, hw, ?_⟩
      by_cases h1 : dsq p w.start < (1 / 20 : ℚ) ^ 2
      · rw [if_pos h1] at hfw; cases hfw; exact Or.inl ⟨rfl, h1⟩
      · rw [if_neg h1] at hfw
        by_cases h2 : dsq p w.stop < (1 / 20 : ℚ) ^ 2
        · rw [if_pos h2] at hfw; cases hfw; exact Or.inr ⟨rfl, h2⟩
        · rw [if_neg h2] at hfw; cases hfw
  · intro hno hex
    unfold snapToVertex
    have hf1 : walls.findSome? (fun w =>
        if dsq p w.start < (1 / 20 : ℚ) ^ 2 then some w.start
        else if dsq p w.stop < (1 / 20 : ℚ) ^ 2 then some w.stop else none) = none := by
      apply findSome_none
      intro w hw
      rw [if_neg (hno w hw).1, if_neg (hno w hw).2]
    rw [hf1]
    cases hf2 : walls.findSome? (fun w =>
        if dsqSeg p w.start w.stop < (1 / 20 : ℚ) ^ 2 then
          some (projectPointOnSegment p w.start w.stop).point
        else none) with
    | none =>
      exfalso
      obtain ⟨w, hw, hs⟩ := hex
      have hnone := List.findSome?_eq_none_iff.mp hf2 w hw
      rw [if_pos hs] at hnone; cases hnone
    | some q =>
      obtain ⟨w, hw, hfw⟩ := findSome_mem _ walls q hf2
      by_cases h1 : dsqSeg p w.start w.stop < (1 / 20 : ℚ) ^ 2
      · rw [if_pos h1] at hfw; cases hfw; exact ⟨w, hw, h1, rfl⟩
      · rw [if_neg h1] at hfw; cases hfw
  · intro hno1 hno2
    unfold snapToVertex
    have hf1 : walls.findSome? (fun w =>
        if dsq p w.start < (1 / 20 : ℚ) ^ 2 then some w.start
        else if dsq p w.stop < (1 / 20 : ℚ) ^ 2 then some w.stop else none) = none := by
      apply findSome_none
      intro w hw
      rw [if_neg (hno1 w hw).1, if_neg (hno1 w hw).2]
    have hf2 : walls.findSome? (fun w =>
        if dsqSeg p w.start w.stop < (1 / 20 : ℚ) ^ 2 then
          some (projectPointOnSegment p w.start w.stop).point
        else none) = none := by
      apply findSome_none
      intro w hw
      rw [if_neg (hno2 w hw)]
    rw [hf1, hf2]
    have hproj := snapAlign_proj (1 / 20) p (wallEndpoints walls)
      ⟨gridRound p.x, none, gridRound p.y, none⟩
    have hx := hproj.1
    have hy := hproj.2
    have hcx := axisFold_char (1 / 20) p.x
      ((wallEndpoints walls).map (fun q => q.x)) (gridRound p.x) none
      (fun d hd => by cases hd)
    have hcy := axisFold_char (1 / 20) p.y
      ((wallEndpoints walls).map (fun q => q.y)) (gridRound p.y) none
      (fun d hd => by cases hd)
    constructor
    · -- x axis
      rcases hcx.2.1 with heq | ⟨c, hc, h1, h2⟩
      · left
        constructor
        · show (snapAlign (1 / 20) p (wallEndpoints walls)).sx = gridRound p.x
          have : (snapAlign (1 / 20) p (wallEndpoints walls)).sx =
              (((wallEndpoints walls).map (fun q => q.x)).foldl
                (axisStep (1 / 20) p.x) (gridRound p.x, none)).1 := by
            unfold snapAlign; rw [← hx]
          rw [this, heq]
        · intro q hq hlt
          obtain ⟨d2, hd2, _⟩ := hcx.2.2.2.2 q.x (List.mem_map.mpr ⟨q, hq, rfl⟩) hlt
          rw [heq] at hd2
          cases hd2
      · right
        obtain ⟨q, hq, hqx⟩ := List.mem_map.mp hc
        refine ⟨q, hq, ?_, ?_, ?_⟩
        · show (snapAlign (1 / 20) p (wallEndpoints walls)).sx = q.x
          have : (snapAlign (1 / 20) p (wallEndpoints walls)).sx =
              (((wallEndpoints walls).map (fun q => q.x)).foldl
                (axisStep (1 / 20) p.x) (gridRound p.x, none)).1 := by
            unfold snapAlign; rw [← hx]
          rw [this, h1, hqx]
        · rw [hqx]; exact hcx.1 (|p.x - c|) h2
        · intro q2 hq2
          rw [hqx]
          by_cases hlt2 : |p.x - q2.x| < 1 / 20
          · obtain ⟨d2, hd2, hle⟩ := hcx.2.2.2.2 q2.x (List.mem_map.mpr ⟨q2, hq2, rfl⟩) hlt2
            rw [h2] at hd2
            cases hd2
            exact hle
          · exact le_of_lt (lt_of_lt_of_le (hcx.1 (|p.x - c|) h2) (not_lt.mp hlt2))
    · -- y axis
      rcases hcy.2.1 with heq | ⟨c, hc, h1, h2⟩
      · left
        constructor
        · show (snapAlign (1 / 20) p (wallEndpoints walls)).sy = gridRound p.y
          have : (snapAlign (1 / 20) p (wallEndpoints walls)).sy =
              (((wallEndpoints walls).map (fun q => q.y)).foldl
                (axisStep (1 / 20) p.y) (gridRound p.y, none)).1 := by
            unfold snapAlign; rw [← hy]
          rw [this, heq]
        · intro q hq hlt
          obtain ⟨d2, hd2, _⟩ := hcy.2.2.2.2 q.y (List.mem_map.mpr ⟨q, hq, rfl⟩) hlt
          rw [heq] at hd2
          cases hd2
      · right
        obtain ⟨q, hq, hqy⟩ := List.mem_map.mp hc
        refine ⟨q, hq, ?_, ?_, ?_⟩
        · show (snapAlign (1 / 20) p (wallEndpoints walls)).sy = q.y
          have : (snapAlign (1 / 20) p (wallEndpoints walls)).sy =
              (((wallEndpoints walls).map (fun q => q.y)).foldl
                (axisStep (1 / 20) p.y) (gridRound p.y, none)).1 := by
            unfold snapAlign; rw [← hy]
          rw [this, h1, hqy]
        · rw [hqy]; exact hcy.1 (|p.y - c|) h2
        · intro q2 hq2
          rw [hqy]
          by_cases hlt2 : |p.y - q2.y| < 1 / 20
          · obtain ⟨d2, hd2, hle⟩ := hcy.2.2.2.2 q2.y (List.mem_map.mpr ⟨q2, hq2, rfl⟩) hlt2
            rw [h2] at hd2
            cases hd2
            exact hle
          · exact le_of_lt (lt_of_lt_of_le (hcy.1 (|p.y - c|) h2) (not_lt.mp hlt2))

/-- Witness for C5: a pointer 0.03 m from the stored vertex `(1,1)`
snaps to that exact vertex (not a grid point); a pointer 0.03 m above
the body of a wall snaps to its projection; and with no walls a pointer
at `(0.26, 0.13)` snaps to the grid point `(0.25, 0.15)`. -/
theorem c5_snap_priority_witness :
    snapToVertex [⟨⟨1, 1⟩, ⟨2, 1⟩, 1 / 10, false⟩] ⟨103 / 100, 1⟩ (1 / 20) = ⟨1, 1⟩ ∧
    (∃ w ∈ [(⟨⟨1, 1⟩, ⟨2, 1⟩, 1 / 10, false⟩ : NWall)],
      (snapToVertex [⟨⟨1, 1⟩, ⟨2, 1⟩, 1 / 10, false⟩] ⟨103 / 100, 1⟩ (1 / 20) = w.start ∧
        dsq ⟨103 / 100, 1⟩ w.start < (1 / 20) ^ 2) ∨
      (snapToVertex [⟨⟨1, 1⟩, ⟨2, 1⟩, 1 / 10, false⟩] ⟨103 / 100, 1⟩ (1 / 20) = w.stop ∧
        dsq ⟨103 / 100, 1⟩ w.stop < (1 / 20) ^ 2)) ∧
    (∃ w ∈ [(⟨⟨0, 0⟩, ⟨2, 0⟩, 1 / 10, false⟩ : NWall)],
      dsqSeg ⟨1, 3 / 100⟩ w.start w.stop < (1 / 20) ^ 2 ∧
      snapToVertex [⟨⟨0, 0⟩, ⟨2, 0⟩, 1 / 10, false⟩] ⟨1, 3 / 100⟩ (1 / 20) =
        (projectPointOnSegment ⟨1, 3 / 100⟩ w.start w.stop).point) ∧
    snapToVertex [] ⟨13 / 50, 13 / 100⟩ (1 / 20) = ⟨1 / 4, 3 / 20⟩ := by
  refine ⟨by with_unfolding_all rfl, ?_, ?_, by with_unfolding_all rfl⟩
  · exact (c5_snap_priority [⟨⟨1, 1⟩, ⟨2, 1⟩, 1 / 10, false⟩] ⟨103 / 100, 1⟩).1
      ⟨⟨⟨1, 1⟩, ⟨2, 1⟩, 1 / 10, false⟩, List.mem_singleton.mpr rfl,
        Or.inl (of_decide_eq_true (by with_unfolding_all rfl))⟩
  · exact (c5_snap_priority [⟨⟨0, 0⟩, ⟨2, 0⟩, 1 / 10, false⟩] ⟨1, 3 / 100⟩).2.1
      (fun w hw => by
        rw [List.mem_singleton] at hw
        subst hw
        exact ⟨of_decide_eq_false (by with_unfolding_all rfl),
               of_decide_eq_false (by with_unfolding_all rfl)⟩)
      ⟨⟨⟨0, 0⟩, ⟨2, 0⟩, 1 / 10, false⟩, List.mem_singleton.mpr rfl,
        of_decide_eq_true (by with_unfolding_all rfl)⟩

/-! ## Furniture alignment engine (`useCanvas.ts`) -/

/-- Character-list prefix test (helper for the substring test). -/
def isPrefixOfChars : List Char → List Char → Bool
  | [], _ => true
  | _ :: _, [] => false
  | c :: cs, d :: ds => c == d && isPrefixOfChars cs ds

/-- Character-list substring test (helper for `jsIncludes`). -/
def containsChars (s sub : List Char) : Bool :=
  match s with
  | [] => sub.isEmpty
  | _ :: rest => isPrefixOfChars sub s || containsChars rest sub

/-- JS `String.prototype.includes`. -/
def jsIncludes (s sub : String) : Bool := containsChars s.data sub.data

/-- Furniture item as consumed by `alignFurnitureToWall` (template
catalog width/depth resolved into the record, as in the source's
`Furniture`). -/
structure Furn where
  templateId : String
  x : ℚ
  y : ℚ
  width : ℚ
  depth : ℚ
  rotation : ℚ
deriving Repr

/-- `getClosestWall` of `useCanvas.ts`: nearest non-virtual wall by
point-to-segment distance; distances are tracked squared
(`Infinity = none`), which preserves every comparison made on them.
The source also returns the projection and the wall angle, which
`alignFurnitureToWall` recomputes and never reads — they are omitted. -/
def getClosestWall (walls : List NWall) (p : Pt) : Option NWall × Option ℚ :=
  walls.foldl
    (fun best w =>
      if w.isVirtual = true then best
      else
        match best.2 with
        | none => (some w, some (dsqSeg p w.start w.stop))
        | some d =>
          if dsqSeg p w.start w.stop < d then (some w, some (dsqSeg p w.start w.stop))
          else best)
    (none, none)

/-- Wall length `Math.sqrt(wallVec.x ** 2 + wallVec.y ** 2)`. -/
noncomputable def wallLen (w : NWall) : ℝ :=
  Real.sqrt (((w.stop.x - w.start.x) ^ 2 + (w.stop.y - w.start.y) ^ 2 : ℚ))

/-- Unit normal `nx = -wallVec.y / len`. -/
noncomputable def wallNormalX (w : NWall) : ℝ :=
  ((-(w.stop.y - w.start.y) : ℚ) : ℝ) / wallLen w

/-- Unit normal `ny = wallVec.x / len`. -/
noncomputable def wallNormalY (w : NWall) : ℝ :=
  (((w.stop.x - w.start.x) : ℚ) : ℝ) / wallLen w

/-- Which side of the wall the cursor lies on: the sign of
`toCenter ⋅ n`.  The source divides the normal by the positive length;
multiplying the test back by `len` preserves its sign exactly, keeping
the embedded test decidable (a zero-length wall, NaN in the source, is
outside the model). -/
def cursorSide (w : NWall) (pos : Pt) : ℚ :=
  if 0 < (pos.x - (projectPointOnSegment pos w.start w.stop).point.x) *
        (-(w.stop.y - w.start.y)) +
      (pos.y - (projectPointOnSegment pos w.start w.stop).point.y) *
        (w.stop.x - w.start.x) then 1 else -1

/-- `Math.atan2(y, x) * 180 / Math.PI`, via `Complex.arg` which has
exactly `atan2` semantics on `(-pi, pi]`. -/
noncomputable def degAtan2 (y x : ℝ) : ℝ := Complex.arg ⟨x, y⟩ * 180 / Real.pi

/-- Result transform of `alignFurnitureToWall` (position and rotation;
all other furniture fields pass through unchanged). -/
structure AlignOut where
  x : ℝ
  y : ℝ
  rotation : ℝ

/-- `alignFurnitureToWall` of `useCanvas.ts`. -/
noncomputable def alignFurnitureToWall (walls : List NWall) (item : Furn)
    (worldPos : Pt) : AlignOut :=
  if jsIncludes item.templateId.toLower "sofa" = false ∧
      jsIncludes item.templateId.toLower "bed" = false then
    ⟨(worldPos.x : ℝ), (worldPos.y : ℝ), (item.rotation : ℝ)⟩
  else
    match getClosestWall walls worldPos with
    | (some w, some dsqBest) =>
      if dsqBest > (if jsIncludes item.templateId.toLower "sofa" = true then 49 else 25) then
        ⟨(worldPos.x : ℝ), (worldPos.y : ℝ), (item.rotation : ℝ)⟩
      else
        if jsIncludes item.templateId.toLower "bed" = true ∧ dsqBest < 25 then
          ⟨((projectPointOnSegment worldPos w.start w.stop).point.x : ℝ) +
              wallNormalX w * ((cursorSide w worldPos : ℚ) : ℝ) *
                ((item.depth / 2 + w.thickness / 2 : ℚ) : ℝ),
            ((projectPointOnSegment worldPos w.start w.stop).point.y : ℝ) +
              wallNormalY w * ((cursorSide w worldPos : ℚ) : ℝ) *
                ((item.depth / 2 + w.thickness / 2 : ℚ) : ℝ),
            degAtan2 (wallNormalY w * ((cursorSide w worldPos : ℚ) : ℝ))
              (wallNormalX w * ((cursorSide w worldPos : ℚ) : ℝ)) - 90⟩
        else
          ⟨(worldPos.x : ℝ), (worldPos.y : ℝ),
            degAtan2 (wallNormalY w * ((cursorSide w worldPos : ℚ) : ℝ))
              (wallNormalX w * ((cursorSide w worldPos : ℚ) : ℝ)) - 90⟩
    | _ => ⟨(worldPos.x : ℝ), (worldPos.y : ℝ), (item.rotation : ℝ)⟩

/-- C6 (amended): (1) an item whose lower-cased `templateId` contains
`'bed'`, when the closest non-virtual wall is strictly within 5 m, is
placed at the wall's clamped projection of the cursor, offset along the
cursor-side unit normal by exactly `depth/2 + wallThickness/2`, rotated
to the cursor-side normal's angle minus 90 degrees (facing away from
the wall) — and the normal really is a unit vector for a nondegenerate
wall; (2) an item containing `'sofa'` but not `'bed'` keeps the raw
cursor position (only its rotation may change); (3) an item containing
neither keeps position and rotation. -/
theorem c6_furniture_docking (walls : List NWall) (item : Furn) (pos : Pt) :
    (∀ w d, jsIncludes item.templateId.toLower "bed" = true →
      getClosestWall walls pos = (some w, some d) → d < 25 →
      (alignFurnitureToWall walls item pos).x =
        ((projectPointOnSegment pos w.start w.stop).point.x : ℝ) +
          wallNormalX w * ((cursorSide w pos : ℚ) : ℝ) *
            ((item.depth / 2 + w.thickness / 2 : ℚ) : ℝ) ∧
      (alignFurnitureToWall walls item pos).y =
        ((projectPointOnSegment pos w.start w.stop).point.y : ℝ) +
          wallNormalY w * ((cursorSide w pos : ℚ) : ℝ) *
            ((item.depth / 2 + w.thickness / 2 : ℚ) : ℝ) ∧
      (alignFurnitureToWall walls item pos).rotation =
        degAtan2 (wallNormalY w * ((cursorSide w pos : ℚ) : ℝ))
          (wallNormalX w * ((cursorSide w pos : ℚ) : ℝ)) - 90 ∧
      (dsq w.start w.stop ≠ 0 → wallNormalX w ^ 2 + wallNormalY w ^ 2 = 1)) ∧
    (jsIncludes item.templateId.toLower "sofa" = true →
      jsIncludes item.templateId.toLower "bed" = false →
      (alignFurnitureToWall walls item pos).x = (pos.x : ℝ) ∧
      (alignFurnitureToWall walls item pos).y = (pos.y : ℝ)) ∧
    (jsIncludes item.templateId.toLower "sofa" = false →
      jsIncludes item.templateId.toLower "bed" = false →
      (alignFurnitureToWall walls item pos).x = (pos.x : ℝ) ∧
      (alignFurnitureToWall walls item pos).y = (pos.y : ℝ) ∧
      (alignFurnitureToWall walls item pos).rotation = (item.rotation : ℝ)) := by
  have hunit : ∀ w : NWall, dsq w.start w.stop ≠ 0 →
      wallNormalX w ^ 2 + wallNormalY w ^ 2 = 1 := by
    intro w hne
    have h0 : (0 : ℝ) ≤ (((w.stop.x - w.start.x) ^ 2 + (w.stop.y - w.start.y) ^ 2 : ℚ) : ℝ) := by
      push_cast
      positivity
    have hpos : (0 : ℝ) < (((w.stop.x - w.start.x) ^ 2 + (w.stop.y - w.start.y) ^ 2 : ℚ) : ℝ) := by
      rcases lt_or_eq_of_le h0 with h | h
      · exact h
      · exfalso
        apply hne
        unfold dsq
        have : ((w.stop.x - w.start.x) ^ 2 + (w.stop.y - w.start.y) ^ 2 : ℚ) = 0 := by
          exact_mod_cast h.symm
        exact this
    unfold wallNormalX wallNormalY wallLen
    rw [div_pow, div_pow, div_add_div_same, Real.sq_sqrt h0]
    rw [div_eq_one_iff_eq (ne_of_gt hpos)]
    push_cast
    ring
  refine ⟨?_, ?_, ?_⟩
  · intro w d hbed hw hd
    unfold alignFurnitureToWall
    rw [if_neg (by
      intro hc
      rw [hbed] at hc
      exact Bool.noConfusion hc.2)]
    rw [hw]
    dsimp only
    have hth : ¬(d > (if jsIncludes item.templateId.toLower "sofa" = true then (49 : ℚ) else 25)) := by
      push_neg
      have h25 : (25 : ℚ) ≤ (if jsIncludes item.templateId.toLower "sofa" = true then (49 : ℚ) else 25) := by
        split <;> norm_num
      exact le_trans (le_of_lt hd) h25
    rw [if_neg hth, if_pos ⟨hbed, hd⟩]
    exact ⟨rfl, rfl, rfl, hunit w⟩
  · intro hs hb
    unfold alignFurnitureToWall
    rw [if_neg (by
      intro hc
      rw [hs] at hc
      exact Bool.noConfusion hc.1)]
    rcases hgc : getClosestWall walls pos with ⟨ow, od⟩
    cases ow with
    | none => exact ⟨rfl, rfl⟩
    | some w =>
      cases od with
      | none => exact ⟨rfl, rfl⟩
      | some d =>
        dsimp only
        by_cases hth : d > (if jsIncludes item.templateId.toLower "sofa" = true then (49 : ℚ) else 25)
        · rw [if_pos hth]; exact ⟨rfl, rfl⟩
        · rw [if_neg hth]
          rw [if_neg (by
            intro hc
            rw [hb] at hc
            exact Bool.noConfusion hc.1)]
          exact ⟨rfl, rfl⟩
  · intro hs hb
    unfold alignFurnitureToWall
    rw [if_pos ⟨hs, hb⟩]
    exact ⟨rfl, rfl, rfl⟩

/-- Horizontal unit wall used in the alignment examples. -/
def unitWall : NWall := ⟨⟨0, 0⟩, ⟨1, 0⟩, 1 / 10, false⟩

/-- Furniture item whose `templateId` contains both `'sofa'` and `'bed'`. -/
def sofaBedItem : Furn := ⟨"sofa-bed", 0, 0, 2, 2, 0⟩

/-- A double bed (width 1.6 m, depth 2 m). -/
def bedItem : Furn := ⟨"bed-double", 0, 0, 8 / 5, 2, 0⟩

/-- A two-seater sofa. -/
def sofaItem : Furn := ⟨"sofa-2", 0, 0, 8 / 5, 9 / 10, 0⟩

/-- A side table (neither sofa nor bed). -/
def tableItem : Furn := ⟨"table-side", 0, 0, 1 / 2, 1 / 2, 0⟩

theorem wallNormalY_unitWall : wallNormalY unitWall = 1 := by
  have hrad : (((unitWall.stop.x - unitWall.start.x) ^ 2 +
      (unitWall.stop.y - unitWall.start.y) ^ 2 : ℚ) : ℝ) = 1 := by
    norm_num [unitWall]
  unfold wallNormalY wallLen
  rw [hrad, Real.sqrt_one]
  norm_num [unitWall]

/-- Counterexample to C6 as stated: `templateId = "sofa-bed"` contains
`'sofa'`, yet with the nearest wall 1 m away the returned position is
NOT the raw cursor position — the `'bed'` branch snaps it to
`y = 21/20`. -/
theorem c6_sofa_position_cex :
    jsIncludes (sofaBedItem.templateId.toLower) "sofa" = true ∧
    (alignFurnitureToWall [unitWall] sofaBedItem ⟨1 / 2, 1⟩).y = 21 / 20 ∧
    ((21 : ℝ) / 20) ≠ (((⟨1 / 2, 1⟩ : Pt).y : ℚ) : ℝ) := by
  refine ⟨by with_unfolding_all rfl, ?_, by push_cast; norm_num⟩
  have h := (c6_furniture_docking [unitWall] sofaBedItem ⟨1 / 2, 1⟩).1 unitWall 1
    (by with_unfolding_all rfl)
    (by with_unfolding_all rfl)
    (by norm_num)
  rw [h.2.1]
  have hproj : (projectPointOnSegment ⟨1 / 2, 1⟩ unitWall.start unitWall.stop).point =
      ⟨1 / 2, 0⟩ := by with_unfolding_all rfl
  have hside : cursorSide unitWall ⟨1 / 2, 1⟩ = 1 := by with_unfolding_all rfl
  have hoff : (sofaBedItem.depth / 2 + unitWall.thickness / 2 : ℚ) = 21 / 20 := by
    norm_num [sofaBedItem, unitWall]
  rw [hproj, hside, wallNormalY_unitWall, hoff]
  dsimp only
  push_cast
  norm_num

/-- Witness for the amended C6: the bed clause at a concrete double bed
1 m from a unit wall (with the unit-normal fact discharged), the sofa
clause at a concrete sofa, and the unaffected clause at a side table. -/
theorem c6_furniture_docking_witness :
    ((alignFurnitureToWall [unitWall] bedItem ⟨1 / 2, 1⟩).y =
      ((projectPointOnSegment ⟨1 / 2, 1⟩ unitWall.start unitWall.stop).point.y : ℝ) +
        wallNormalY unitWall * ((cursorSide unitWall ⟨1 / 2, 1⟩ : ℚ) : ℝ) *
          ((bedItem.depth / 2 + unitWall.thickness / 2 : ℚ) : ℝ)) ∧
    wallNormalX unitWall ^ 2 + wallNormalY unitWall ^ 2 = 1 ∧
    ((alignFurnitureToWall [unitWall] sofaItem ⟨1 / 2, 1⟩).x = ((1 : ℚ) / 2 : ℚ) ∧
      (alignFurnitureToWall [unitWall] sofaItem ⟨1 / 2, 1⟩).y = ((1 : ℚ) : ℝ)) ∧
    ((alignFurnitureToWall [unitWall] tableItem ⟨1 / 2, 1⟩).rotation =
      (tableItem.rotation : ℝ)) := by
  have hbed := (c6_furniture_docking [unitWall] bedItem ⟨1 / 2, 1⟩).1 unitWall 1
    (by with_unfolding_all rfl)
    (by with_unfolding_all rfl)
    (by norm_num)
  have hsofa := (c6_furniture_docking [unitWall] sofaItem ⟨1 / 2, 1⟩).2.1
    (by with_unfolding_all rfl)
    (by with_unfolding_all rfl)
  have htable := (c6_furniture_docking [unitWall] tableItem ⟨1 / 2, 1⟩).2.2
    (by with_unfolding_all rfl)
    (by with_unfolding_all rfl)
  refine ⟨hbed.2.1, hbed.2.2.2 ?_, ⟨hsofa.1, hsofa.2⟩, htable.2.2⟩
  intro hz
  have : dsq unitWall.start unitWall.stop = 1 := by with_unfolding_all rfl
  rw [this] at hz
  exact absurd hz one_ne_zero

/-! ## AI importer scaling logic (`convertVisionToWalls`, V7) -/

/-- Site envelope passed by `generateLayout` into the converter. -/
structure SiteConstraints where
  landWidth : ℚ
  landDepth : ℚ
deriving Repr

/-- Shape of the vision response consumed by the scaling logic:
footprint points and per-room corner polygons (both optional in the
defensive parse), plus the AI-reported meters hints. -/
structure VisionData where
  footprint : Option (List Pt)
  rooms : List (Option (List Pt))
  overall_width_meters : Option ℚ
  overall_width : Option ℚ
deriving Repr

/-- JS `a || b` on an optional number: `undefined` and `0` fall through. -/
def jsOrQ (a : Option ℚ) (b : ℚ) : ℚ :=
  match a with
  | none => b
  | some v => if v = 0 then b else v

/-- All coordinates entering the bounding box: footprint points then
every room's corners. -/
def allScalePoints (data : VisionData) : List Pt :=
  (data.footprint.getD []) ++ data.rooms.flatMap (fun r => r.getD [])

/-- `(minX, maxX, minY, maxY)`; the `minX === Infinity` guard of the
source becomes the empty-list default `(0, 1000, 0, 1000)`. -/
def bboxOf (data : VisionData) : ℚ × ℚ × ℚ × ℚ :=
  match allScalePoints data with
  | [] => (0, 1000, 0, 1000)
  | p :: ps =>
    (ps.foldl (fun m q => min m q.x) p.x, ps.foldl (fun m q => max m q.x) p.x,
     ps.foldl (fun m q => min m q.y) p.y, ps.foldl (fun m q => max m q.y) p.y)

/-- The drawing's longest bounding-box dimension,
`Math.max(unitWidth, unitHeight)`. -/
def drawingLongest (data : VisionData) : ℚ :=
  max ((bboxOf data).2.1 - (bboxOf data).1) ((bboxOf data).2.2.2 - (bboxOf data).2.2.1)

/-- `Math.max(landWidth, landDepth)`, `0` without constraints. -/
def landLongestOf : Option SiteConstraints → ℚ
  | none => 0
  | some c => max c.landWidth c.landDepth

/-- The footprint shoelace loop of the area-based fallback
(`|sum (x_i y_j - x_j y_i)| / 2`, the same accumulation as
`shoelaceData`). -/
def footprintUnitArea (fp : List Pt) : ℚ := |(shoelaceData fp).1| / 2

/-- JS truthiness of the optional `targetArea` number. -/
def isTruthyNum : Option ℚ → Bool
  | none => false
  | some v => decide (¬v = 0)

/-- JS truthiness of `data.footprint && data.footprint.length > 2`. -/
def fpLengthOver2 : Option (List Pt) → Bool
  | none => false
  | some fp => decide (2 < fp.length)

/-- The V7 scaling strategy: direct longest-to-longest site mapping,
else area-based mapping, else the AI-reported meters hint; `0.015` is
the ultimate fallback in every degenerate branch. -/
noncomputable def computeScale (data : VisionData) (targetArea : Option ℚ)
    (constraints : Option SiteConstraints) : ℝ :=
  if 0 < landLongestOf constraints then
    if 0 < drawingLongest data then
      ((landLongestOf constraints / drawingLongest data : ℚ) : ℝ)
    else ((3 / 200 : ℚ) : ℝ)
  else if (isTruthyNum targetArea && fpLengthOver2 data.footprint) = true then
    if 0 < footprintUnitArea (data.footprint.getD []) then
      Real.sqrt ((targetArea.getD 0 / footprintUnitArea (data.footprint.getD []) : ℚ))
    else ((3 / 200 : ℚ) : ℝ)
  else
    if 0 < drawingLongest data then
      ((jsOrQ data.overall_width_meters (jsOrQ data.overall_width 15) / drawingLongest data : ℚ) : ℝ)
    else ((3 / 200 : ℚ) : ℝ)

/-- C7: with explicit site dimensions the scale is exactly the longest
site dimension divided by the longest bounding-box dimension of all
footprint and room-corner coordinates — regardless of `targetArea`;
area-based scaling and the AI meters hint are reached only without a
positive site dimension, in that priority order. -/
theorem c7_scale_longest_mapping (data : VisionData) (targetArea : Option ℚ) :
    (∀ c : SiteConstraints, 0 < max c.landWidth c.landDepth →
      0 < drawingLongest data →
      computeScale data targetArea (some c) =
        ((max c.landWidth c.landDepth / drawingLongest data : ℚ) : ℝ)) ∧
    (∀ cs : Option SiteConstraints, ¬0 < landLongestOf cs →
      (isTruthyNum targetArea && fpLengthOver2 data.footprint) = true →
      0 < footprintUnitArea (data.footprint.getD []) →
      computeScale data targetArea cs =
        Real.sqrt ((targetArea.getD 0 / footprintUnitArea (data.footprint.getD []) : ℚ))) ∧
    (∀ cs : Option SiteConstraints, ¬0 < landLongestOf cs →
      (isTruthyNum targetArea && fpLengthOver2 data.footprint) = false →
      0 < drawingLongest data →
      computeScale data targetArea cs =
        ((jsOrQ data.overall_width_meters (jsOrQ data.overall_width 15) /
          drawingLongest data : ℚ) : ℝ)) := by
  refine ⟨?_, ?_, ?_⟩
  · intro c hc hdim
    unfold computeScale
    rw [if_pos (show 0 < landLongestOf (some c) from hc), if_pos hdim]
    rfl
  · intro cs hcs htruthy harea
    unfold computeScale
    rw [if_neg hcs, if_pos htruthy, if_pos harea]
  · intro cs hcs htruthy hdim
    unfold computeScale
    rw [if_neg hcs, if_neg (by rw [htruthy]; exact Bool.noConfusion), if_pos hdim]

/-- Vision data whose bounding box is 1000 × 600 drawing units. -/
def data1000 : VisionData :=
  ⟨some [⟨0, 0⟩, ⟨1000, 0⟩, ⟨1000, 600⟩, ⟨0, 600⟩], [], none, none⟩

/-- Witness for C7: for a 1000×600 input box and a 15 m × 9 m site,
`1000 * scale = 15`; without site dimensions, the same input with
`targetArea = 60` uses area scaling (`sqrt(60 / 600000)`), and with no
target area it uses the 15 m default hint. -/
theorem c7_scale_longest_mapping_witness :
    1000 * computeScale data1000 (some 60) (some ⟨15, 9⟩) = 15 ∧
    computeScale data1000 (some 60) none = Real.sqrt ((60 / 600000 : ℚ)) ∧
    computeScale data1000 none none = ((15 / 1000 : ℚ) : ℝ) := by
  have h := c7_scale_longest_mapping data1000 (some 60)
  have h3 := c7_scale_longest_mapping data1000 none
  refine ⟨?_, ?_, ?_⟩
  · rw [h.1 ⟨15, 9⟩ (by norm_num) (of_decide_eq_true (by with_unfolding_all rfl))]
    rw [show max (15 : ℚ) 9 = 15 from by norm_num,
      show drawingLongest data1000 = 1000 from by with_unfolding_all rfl]
    push_cast
    norm_num
  · rw [h.2.1 none (by norm_num [landLongestOf]) (by with_unfolding_all rfl)
      (of_decide_eq_true (by with_unfolding_all rfl))]
    rw [show ((some (60 : ℚ)).getD 0 : ℚ) = 60 from rfl,
      show footprintUnitArea (data1000.footprint.getD []) = 600000 from by
        with_unfolding_all rfl]
  · rw [h3.2.2 none (by norm_num [landLongestOf]) (by with_unfolding_all rfl)
      (of_decide_eq_true (by with_unfolding_all rfl))]
    rw [show jsOrQ (VisionData.overall_width_meters data1000)
        (jsOrQ (VisionData.overall_width data1000) 15) = 15 from by with_unfolding_all rfl,
      show drawingLongest data1000 = 1000 from by with_unfolding_all rfl]

/-! ## `generateLayout` feasibility gate -/

/-- The network calls `generateLayout` can issue, in dependency order. -/
inductive NetworkCall where
  | imageGeneration : NetworkCall
  | visionStructural : NetworkCall
  | visionFurniture : NetworkCall
deriving DecidableEq, Repr

/-- Errors thrown before any network call: the missing-API-key error
and the feasibility validation error (carrying the required and
available areas formatted into the source's message). -/
inductive GenError where
  | apiKeyMissing : GenError
  | infeasible : ℚ → ℚ → GenError
deriving DecidableEq, Repr

/-- Parsed request: `parseFloat(...) || 0` and `parseInt(...) || 0` are
modelled as optional numbers defaulting to 0. -/
structure GenRequest where
  landWidth : Option ℚ
  landDepth : Option ℚ
  bedrooms : Option ℤ
  bathrooms : Option ℤ
deriving Repr

/-- `(18 + 9 + 11·bedrooms + 4·bathrooms) * 1.25`. -/
def requiredAreaOf (r : GenRequest) : ℚ :=
  (18 + 9 + ((r.bedrooms.getD 0 : ℤ) : ℚ) * 11 + ((r.bathrooms.getD 0 : ℤ) : ℚ) * 4) * (5 / 4)

/-- `landWidth * landDepth`. -/
def landAreaOf (r : GenRequest) : ℚ := r.landWidth.getD 0 * r.landDepth.getD 0

/-- `generateLayout` up to its first network call: the API-key check,
the feasibility check (`requiredArea > landArea * 0.8` throws), and
otherwise the three-call chain — image generation, then structural
vision, then furniture vision — modelled as the list of issued calls. -/
def generateLayout (r : GenRequest) (apiKey : String) :
    List NetworkCall × Except GenError Unit :=
  if apiKey = "" then ([], Except.error GenError.apiKeyMissing)
  else if landAreaOf r * (4 / 5) < requiredAreaOf r then
    ([], Except.error (GenError.infeasible (requiredAreaOf r) (landAreaOf r)))
  else
    ([NetworkCall.imageGeneration, NetworkCall.visionStructural, NetworkCall.visionFurniture],
     Except.ok ())

/-- C9: whenever `(18 + 9 + 11·bedrooms + 4·bathrooms) · 1.25` exceeds
`0.8 · landWidth · landDepth`, `generateLayout` issues no network call
at all — neither image generation nor any vision analysis — and throws;
with an API key present the error is the descriptive feasibility
validation error. -/
theorem c9_feasibility_gate (r : GenRequest) (apiKey : String)
    (h : landAreaOf r * (4 / 5) < requiredAreaOf r) :
    (generateLayout r apiKey).1 = [] ∧
    (∃ e, (generateLayout r apiKey).2 = Except.error e) ∧
    (apiKey ≠ "" →
      (generateLayout r apiKey).2 =
        Except.error (GenError.infeasible (requiredAreaOf r) (landAreaOf r))) := by
  unfold generateLayout
  by_cases hk : apiKey = ""
  · rw [if_pos hk]
    exact ⟨rfl, ⟨GenError.apiKeyMissing, rfl⟩, fun hne => absurd hk hne⟩
  · rw [if_neg hk, if_pos h]
    exact ⟨rfl, ⟨GenError.infeasible (requiredAreaOf r) (landAreaOf r), rfl⟩, fun _ => rfl⟩

/-- Witness for C9: 2 bedrooms + 1 bathroom need 66.25 m², more than
80% of a 5 m × 5 m site, so the request is rejected with the
feasibility error and the call list stays empty. -/
theorem c9_feasibility_gate_witness :
    (generateLayout ⟨some 5, some 5, some 2, some 1⟩ "k").1 = [] ∧
    (∃ e, (generateLayout ⟨some 5, some 5, some 2, some 1⟩ "k").2 = Except.error e) ∧
    (generateLayout ⟨some 5, some 5, some 2, some 1⟩ "k").2 =
      Except.error (GenError.infeasible
        (requiredAreaOf ⟨some 5, some 5, some 2, some 1⟩)
        (landAreaOf ⟨some 5, some 5, some 2, some 1⟩)) := by
  have h := c9_feasibility_gate ⟨some 5, some 5, some 2, some 1⟩ "k"
    (by norm_num [landAreaOf, requiredAreaOf])
  exact ⟨h.1, h.2.1, h.2.2 (of_decide_eq_false (by with_unfolding_all rfl))⟩
